import Mathlib

/-!
Verification development for the node-kubescape library (a lifecycle manager
wrapping the kubescape CLI binary).  The TypeScript sources are shallowly
embedded: JavaScript strings are modelled as lists of characters, the
insertion-ordered string-keyed object used as the framework catalog is
modelled as an association list, effectful operations are modelled as pure
functions over an explicit oracle describing the outside world (subprocess
results, network answers, the file system) that additionally return a trace
of the network/subprocess effects they perform, and JavaScript exceptions
are modelled with `Except`.
-/

deriving instance DecidableEq for Except

namespace NodeKubescape

/-- JavaScript strings, modelled as lists of characters. -/
abbrev Str := List Char

/-- The `KubescapeFramework` record (src/unnamed/part_000:82-86).  At runtime
the `location` field can hold the JS value `undefined` (when a JSON download
descriptor lacks a `path` field), so it is modelled as `Option Str`,
`none` standing for `undefined`. -/
structure KubescapeFramework where
  name : Str
  isInstalled : Bool
  location : Option Str
deriving DecidableEq, Repr

/-- The JS object `this._frameworks`: an insertion-ordered string-keyed
map from framework name to framework, modelled as an association list
(a binding is never created for an already-present key, see
`appendToFrameworks`). -/
abbrev Catalog := List (Str × KubescapeFramework)

/-- JS property read `cat[k]`: the binding of key `k`, `none` for absent
(`undefined`). -/
def catFind (c : Catalog) (k : Str) : Option KubescapeFramework :=
  (c.find? (fun p => p.1 == k)).map (fun p => p.2)

/-- `Object.keys`, in insertion order. -/
def catKeys (c : Catalog) : List Str := c.map (fun p => p.1)

/-- `appendToFrameworks` (src/unnamed/part_000:288-295): for each framework
in `fs`, insert it under its `name` key only when that key is absent;
`!to[key]` in the source is falsy exactly when the key is absent, because
every stored value is a (truthy) object. -/
def appendToFrameworks (cat : Catalog) (fs : List KubescapeFramework) : Catalog :=
  fs.foldl (fun acc fw => if (catFind acc fw.name).isSome then acc else acc ++ [(fw.name, fw)]) cat

theorem catFind_append_single (c : Catalog) (j : Str) (f : KubescapeFramework) (k : Str) :
    catFind (c ++ [(j, f)]) k = (catFind c k).or (if j = k then some f else none) := by
  unfold catFind
  rw [List.find?_append]
  cases h : c.find? (fun p => p.1 == k) with
  | none =>
    by_cases hj : j = k
    · simp [List.find?, hj]
    · have hb : (j == k) = false := beq_eq_false_iff_ne.mpr hj
      simp [List.find?, hb, hj]
  | some p =>
    simp

/-- One step of the `appendToFrameworks` fold. -/
def appendStep (acc : Catalog) (fw : KubescapeFramework) : Catalog :=
  if (catFind acc fw.name).isSome then acc else acc ++ [(fw.name, fw)]

theorem appendToFrameworks_cons (c : Catalog) (f : KubescapeFramework)
    (fs : List KubescapeFramework) :
    appendToFrameworks c (f :: fs) = appendToFrameworks (appendStep c f) fs := rfl

theorem catFind_appendStep (c : Catalog) (f : KubescapeFramework) (k : Str) :
    catFind (appendStep c f) k = (catFind c k).or (if f.name = k then some f else none) := by
  unfold appendStep
  by_cases h : (catFind c f.name).isSome
  · simp only [h, if_true]
    by_cases hk : f.name = k
    · subst hk
      cases hf : catFind c f.name with
      | none => rw [hf] at h; simp at h
      | some g => simp [hf]
    · cases hf : catFind c k with
      | none => simp [hk]
      | some g => simp
  · rw [if_neg h]
    exact catFind_append_single c f.name f k

/-- C3: `appendToFrameworks` is first-write-wins.  The lookup of any key
after the merge is the prior binding when the key was already present
(prior value kept unchanged, `location` and `isInstalled` included), and
otherwise the first framework of the merged list carrying that name
(so exactly the names not yet present are inserted). -/
theorem appendToFrameworks_first_write_wins (c : Catalog) (fs : List KubescapeFramework)
    (k : Str) :
    catFind (appendToFrameworks c fs) k =
      (catFind c k).or (fs.find? (fun fw => fw.name == k)) := by
  induction fs generalizing c with
  | nil =>
    cases h : catFind c k <;> simp [appendToFrameworks, h]
  | cons f fs ih =>
    rw [appendToFrameworks_cons, ih, catFind_appendStep]
    cases h : catFind c k with
    | some g => simp
    | none =>
      by_cases hk : f.name = k
      · simp [List.find?, hk]
      · have hb : (f.name == k) = false := by simp [hk]
        simp [List.find?, hb, hk]

/-! ### Version detection (src/unnamed/part_000:67-75, 492-528) -/

/-- The `KubescapeVersion` class (src:67-75). -/
structure KubescapeVersion where
  version : Str
  isLatest : Bool
deriving DecidableEq, Repr

/-- `new KubescapeVersion` with both constructor defaults (src:71-74). -/
def KubescapeVersion.default : KubescapeVersion :=
  { version := ("unknown").toList, isLatest := true }

def TXT_LATEST : Str := ("latest").toList

def PACKAGE_BASE_URL : Str :=
  ("https://api.github.com/repos/armosec/kubescape/releases/latest").toList

def COMMAND_GET_VERSION : Str := ("version").toList

def ERROR_KUBESCAPE_NOT_INSTALLED : Str := ("Kubescape is not installed!").toList

/-- Network or subprocess effects performed by the embedded operations.
UI calls are not effects in this sense and are not traced. -/
inductive Effect where
  | subproc (cmd : Str)
  | net (url : Str)
deriving DecidableEq, Repr

/-- Outcome of one `cp.exec` call, as seen by its callback. -/
structure ExecResult where
  err : Bool
  stdout : Str
  stderr : Str
deriving DecidableEq, Repr

/-- The part of the regex `v\d+\.\d+\.\d+` after the leading `v`:
`\d+\.\d+\.\d+` matched at the head of `rest`, returning the matched
characters.  `\d+` is greedy; since the literal `.` that follows each digit
group is not itself a digit, maximal munch agrees with backtracking regex
semantics. -/
def matchDigitsDotted (rest : Str) : Option Str :=
  let d1 := rest.takeWhile Char.isDigit
  let r1 := rest.dropWhile Char.isDigit
  if d1.isEmpty then none else
  match r1 with
  | '.' :: r2 =>
    let d2 := r2.takeWhile Char.isDigit
    let r3 := r2.dropWhile Char.isDigit
    if d2.isEmpty then none else
    match r3 with
    | '.' :: r4 =>
      let d3 := r4.takeWhile Char.isDigit
      if d3.isEmpty then none else
      some (d1 ++ ('.' :: d2) ++ ('.' :: d3))
    | _ => none
  | _ => none

/-- Attempt to match the regex `v\d+\.\d+\.\d+` at the head of `s`. -/
def matchVersionAt : Str → Option Str
  | [] => none
  | c :: rest =>
    if c = 'v' then (matchDigitsDotted rest).map (fun suf => 'v' :: suf) else none

/-- First (leftmost) match of `stdout.match(/v\d+\.\d+\.\d+/g)`. -/
def findVersionToken : Str → Option Str
  | [] => none
  | c :: rest =>
    match matchVersionAt (c :: rest) with
    | some t => some t
    | none => findVersionToken rest

/-- The `version` field of the `KubescapeVersion` produced by
`getKubescapeVersion` from the version subcommand's stdout: the first
`v<major>.<minor>.<patch>` token, or the constructor default `unknown`. -/
def detectedVersionOf (stdout : Str) : Str :=
  (findVersionToken stdout).getD (("unknown").toList)

theorem matchVersionAt_starts_with_v {s t : Str} (h : matchVersionAt s = some t) :
    ∃ rest, t = 'v' :: rest := by
  cases s with
  | nil => simp [matchVersionAt] at h
  | cons c cs =>
    simp only [matchVersionAt] at h
    by_cases hc : c = 'v'
    · rw [if_pos hc] at h
      cases hm : matchDigitsDotted cs with
      | none => rw [hm] at h; simp at h
      | some suf =>
        rw [hm] at h
        simp at h
        exact ⟨suf, h.symm⟩
    · rw [if_neg hc] at h
      simp at h

theorem findVersionToken_starts_with_v {s t : Str} (h : findVersionToken s = some t) :
    ∃ rest, t = 'v' :: rest := by
  induction s with
  | nil => exact absurd h (by simp [findVersionToken])
  | cons c cs ih =>
    unfold findVersionToken at h
    cases hm : matchVersionAt (c :: cs) with
    | some u =>
      rw [hm] at h
      exact matchVersionAt_starts_with_v (hm.trans (by injection h with h; rw [h]))
    | none =>
      rw [hm] at h
      exact ih h

/-- A detected version is never the literal `latest`. -/
theorem detectedVersionOf_ne_latest (stdout : Str) :
    detectedVersionOf stdout ≠ TXT_LATEST := by
  unfold detectedVersionOf
  cases h : findVersionToken stdout with
  | none => decide
  | some t =>
    obtain ⟨rest, hr⟩ := findVersionToken_starts_with_v h
    subst hr
    intro heq
    have hhead := congrArg List.head? heq
    simp [TXT_LATEST] at hhead

/-- `KubescapeApi.getKubescapeVersion` (src:492-528), as a function of the
install flag, the requested version kind, the outcome of the `version`
subprocess, and the upstream latest tag (the answer `getLatestVersion`
would produce).  Faithful points: when not installed it throws
`ERROR_KUBESCAPE_NOT_INSTALLED`; a subprocess error throws `Error(stderr)`
inside the callback (the promise never resolves — modelled as
`Except.error`); with no version token in stdout, the constructor-default
`KubescapeVersion` is resolved and upstream is never consulted; with a
token, upstream is queried exactly when `kind === "latest"`.  Effects are
traced at subcommand granularity. -/
def getKubescapeVersion (isInstalled : Bool) (kind : Str) (res : ExecResult)
    (latestTag : Str) : Except Str KubescapeVersion × List Effect :=
  if !isInstalled then (Except.error ERROR_KUBESCAPE_NOT_INSTALLED, [])
  else if res.err then (Except.error res.stderr, [Effect.subproc COMMAND_GET_VERSION])
  else
    match findVersionToken res.stdout with
    | some tok =>
      if kind = TXT_LATEST then
        (Except.ok { version := tok, isLatest := latestTag == tok },
         [Effect.subproc COMMAND_GET_VERSION, Effect.net PACKAGE_BASE_URL])
      else
        (Except.ok { version := tok, isLatest := false },
         [Effect.subproc COMMAND_GET_VERSION])
    | none => (Except.ok KubescapeVersion.default, [Effect.subproc COMMAND_GET_VERSION])

/-- On a successful run, the detected version is `detectedVersionOf stdout`. -/
theorem getKubescapeVersion_version_eq (isInstalled : Bool) (kind : Str) (res : ExecResult)
    (latestTag : Str) (v : KubescapeVersion) (effs : List Effect)
    (h : getKubescapeVersion isInstalled kind res latestTag = (Except.ok v, effs)) :
    v.version = detectedVersionOf res.stdout := by
  unfold getKubescapeVersion at h
  split at h
  · simp at h
  · split at h
    · simp at h
    · cases htok : findVersionToken res.stdout with
      | some tok =>
        rw [htok] at h
        dsimp only at h
        by_cases hk : kind = TXT_LATEST
        · rw [if_pos hk] at h
          injection h with h1 h2
          injection h1 with h1
          rw [← h1]
          unfold detectedVersionOf
          rw [htok]
          rfl
        · rw [if_neg hk] at h
          injection h with h1 h2
          injection h1 with h1
          rw [← h1]
          unfold detectedVersionOf
          rw [htok]
          rfl
      | none =>
        rw [htok] at h
        dsimp only at h
        injection h with h1 h2
        injection h1 with h1
        rw [← h1]
        unfold detectedVersionOf
        rw [htok]
        rfl

/-- C10: when the version subcommand's stdout contains no
`v<major>.<minor>.<patch>` token, `getKubescapeVersion` resolves with the
constructor-default placeholder (version `unknown`, `isLatest = true`) and
performs no upstream latest-tag query (no network effect), whatever the
requested version kind was. -/
theorem getKubescapeVersion_no_token (kind : Str) (res : ExecResult) (tag : Str)
    (herr : res.err = false) (htok : findVersionToken res.stdout = none) :
    getKubescapeVersion true kind res tag =
      (Except.ok KubescapeVersion.default, [Effect.subproc COMMAND_GET_VERSION]) := by
  unfold getKubescapeVersion
  simp [herr, htok]

theorem getKubescapeVersion_no_token_witness :
    getKubescapeVersion true TXT_LATEST
        { err := false, stdout := ("kubescape build 123").toList, stderr := [] }
        (("v9.9.9").toList) =
      (Except.ok KubescapeVersion.default, [Effect.subproc COMMAND_GET_VERSION]) :=
  getKubescapeVersion_no_token TXT_LATEST
    { err := false, stdout := ("kubescape build 123").toList, stderr := [] }
    (("v9.9.9").toList) rfl (by decide)

/-- The version-reconciliation computation inside `setup` (src:856-878):
`needsUpdate` starts as `!isInstalled`; when installed, the detected
version (`this.version` after `getKubescapeVersion`) is compared with the
requested one, and the upstream latest tag is consulted only in the
`latest` branch.  Returns `needsUpdate` with the network effects of this
step. -/
def reconcileNeedsUpdate (isInstalled : Bool) (detected requested latestTag : Str) :
    Bool × List Effect :=
  if !isInstalled then (true, [])
  else if requested ≠ detected then
    (if requested = TXT_LATEST then (!(latestTag == detected), [Effect.net PACKAGE_BASE_URL])
     else (true, []))
  else (false, [])

/-- C2: in setup's version-reconciliation phase, with detected installed
version `vA = detectedVersionOf stdout` and requested version `vB`: when
the tool is not installed, `needsUpdate` is `true`; otherwise
`needsUpdate = (vA != vB)`, except that for the literal `latest` sentinel
`needsUpdate = (vA != latestTag)`.  (A detected version is never the
string `latest`, see `detectedVersionOf_ne_latest`, which is what makes
the `latest` case unconditional.) -/
theorem setup_version_reconciliation (isInstalled : Bool) (stdout vB latestTag : Str) :
    (reconcileNeedsUpdate isInstalled (detectedVersionOf stdout) vB latestTag).1 =
      (if isInstalled then
        (if vB = TXT_LATEST then !(detectedVersionOf stdout == latestTag)
         else !(detectedVersionOf stdout == vB))
       else true) := by
  unfold reconcileNeedsUpdate
  cases isInstalled with
  | false => simp
  | true =>
    simp only [Bool.not_true, Bool.false_eq_true, if_false, if_true]
    by_cases hlat : vB = TXT_LATEST
    · subst hlat
      have hne : TXT_LATEST ≠ detectedVersionOf stdout :=
        fun h => detectedVersionOf_ne_latest stdout h.symm
      rw [if_pos hne, if_pos rfl, if_pos rfl]
      exact congrArg (fun b => !b) Bool.beq_comm
    · by_cases heq : vB = detectedVersionOf stdout
      · rw [if_neg (fun h => h heq), if_neg hlat]
        simp [heq]
      · rw [if_pos heq, if_neg hlat, if_neg hlat]
        have hd : detectedVersionOf stdout ≠ vB := fun h => heq h.symm
        simp [beq_eq_false_iff_ne.mpr hd]

/-! ### Path expansion (src/unnamed/part_000:129-147) -/

/-- Split a path into `/`-separated segments (empty segments kept, as
produced by duplicate or leading/trailing separators). -/
def splitSegsAux (cur : Str) : Str → List Str
  | [] => [cur.reverse]
  | c :: rest => if c = '/' then cur.reverse :: splitSegsAux [] rest else splitSegsAux (c :: cur) rest

def splitSegs (p : Str) : List Str := splitSegsAux [] p

/-- Node's `normalizeString` segment resolution: drop empty and `.`
segments; `..` pops the previous segment, or is kept (leading) for
relative paths and dropped at the root of absolute paths.  `acc` holds the
output segments in reverse. -/
def normSegs (allowAboveRoot : Bool) : List Str → List Str → List Str
  | acc, [] => acc.reverse
  | acc, seg :: rest =>
    if seg = [] || seg = ['.'] then normSegs allowAboveRoot acc rest
    else if seg = ['.', '.'] then
      (match acc with
       | [] =>
         if allowAboveRoot then normSegs allowAboveRoot [seg] rest
         else normSegs allowAboveRoot [] rest
       | top :: accTail =>
         if top = ['.', '.'] then normSegs allowAboveRoot (seg :: acc) rest
         else normSegs allowAboveRoot accTail rest)
    else normSegs allowAboveRoot (seg :: acc) rest

/-- `path.normalize` for POSIX (the platform assumed throughout this
development), following Node's algorithm: empty input becomes `.`,
segments are resolved, the leading separator of an absolute path and a
trailing separator are preserved. -/
def normalizeL (p : Str) : Str :=
  if p = [] then ['.']
  else
    let isAbs := p.head? = some '/'
    let trailing := p.getLast? = some '/'
    let body := List.intercalate ['/'] (normSegs (!isAbs) [] (splitSegs p))
    if body = [] then
      (if isAbs then ['/'] else if trailing then ['.', '/'] else ['.'])
    else
      (if isAbs then '/' :: body else body) ++ (if trailing then ['/'] else [])

/-- `path.join(a, b)` for POSIX: zero-length parts are skipped, the rest are
joined with `/` and normalized; no parts at all gives `.`. -/
def joinL (a b : Str) : Str :=
  match a, b with
  | [], [] => ['.']
  | [], bs => normalizeL bs
  | as_, [] => normalizeL as_
  | as_, bs => normalizeL (as_ ++ ('/' :: bs))

/-- JS `String.prototype.replace` with a string pattern: replaces only the
first occurrence (the original string when the pattern does not occur).
`$`-escape processing of the replacement string is not modelled;
replacement values are inserted verbatim. -/
def replaceFirstL (pat rep : Str) : Str → Str
  | [] => if pat.isPrefixOf ([] : Str) then rep else []
  | c :: cs =>
    if pat.isPrefixOf (c :: cs) then rep ++ (c :: cs).drop pat.length
    else c :: replaceFirstL pat rep cs

/-- Index of the first occurrence of `pat` in a string, if any. -/
def firstOccIdx (pat : Str) : Str → Option Nat
  | [] => if pat.isPrefixOf ([] : Str) then some 0 else none
  | c :: cs =>
    if pat.isPrefixOf (c :: cs) then some 0
    else (firstOccIdx pat cs).map (fun i => i + 1)

theorem replaceFirstL_eq_firstOccIdx (pat rep : Str) (s : Str) :
    replaceFirstL pat rep s =
      (match firstOccIdx pat s with
       | none => s
       | some i => s.take i ++ rep ++ s.drop (i + pat.length)) := by
  induction s with
  | nil =>
    by_cases hp : pat.isPrefixOf ([] : Str)
    · have hpe : pat = [] := by
        cases pat with
        | nil => rfl
        | cons p ps => simp [List.isPrefixOf] at hp
      subst hpe
      simp [replaceFirstL, firstOccIdx]
    · simp [replaceFirstL, firstOccIdx, hp]
  | cons c cs ih =>
    by_cases hp : pat.isPrefixOf (c :: cs)
    · simp [replaceFirstL, firstOccIdx, hp]
    · simp only [replaceFirstL, firstOccIdx, hp, if_false, Bool.false_eq_true]
      cases hi : firstOccIdx pat cs with
      | none => rw [ih, hi]; rfl
      | some i =>
        rw [ih, hi]
        simp [List.take_succ_cons, List.drop_succ_cons, Nat.add_right_comm]

/-- `expand` (src:129-147).  `home` is `os.homedir()`; `env` is
`process.env` as an association list in `Object.keys` iteration order.
The input is first normalized; a leading `~` (of the normalized path) is
replaced by joining with the home directory; then, for each environment
entry with a truthy (non-empty) value, `String.replace` substitutes the
first occurrence of `$NAME`. -/
def expand (home : Str) (env : List (Str × Str)) (str : Str) : Str :=
  let expandedPath := normalizeL str
  if expandedPath.length ≤ 0 then expandedPath
  else
    let expandedPath :=
      if expandedPath.head? = some '~' then joinL home (expandedPath.drop 1)
      else expandedPath
    env.foldl
      (fun acc p => if p.2 = [] then acc else replaceFirstL ('$' :: p.1) p.2 acc)
      expandedPath

/-- C9 as stated is false: with environment `X=v`, the claim demands both
occurrences of `$X` in `/a/$X/$X` be replaced (yielding `/a/v/v`), but JS
`String.replace` with a string pattern only replaces the first occurrence,
yielding `/a/v/$X`. -/
theorem expand_counterexample :
    expand (("/home/u").toList) [(("X").toList, ("v").toList)] (("/a/$X/$X").toList)
        = ("/a/v/$X").toList ∧
      ("/a/v/$X").toList ≠ ("/a/v/v").toList := by
  constructor
  · decide
  · decide

/-- C9 amended: `expand` replaces a leading `~` (of the normalized path) by
joining with the user home directory, and for each set environment
variable with a non-empty value it replaces only the FIRST occurrence of
`$VARNAME`, leaving any later occurrences — and the tokens of unset or
empty variables — literal.  Stated for a one-variable environment: the
first occurrence (at index `i`) is replaced, the prefix and the whole
suffix (later occurrences included) are kept verbatim; with an empty
value the input is unchanged; and a normalized path starting with `~` is
joined onto the home directory. -/
theorem expand_amended (home name val p q : Str) (i : Nat)
    (hval : val ≠ []) (hnorm : normalizeL p = p) (hhead : p.head? ≠ some '~')
    (hocc : firstOccIdx ('$' :: name) p = some i)
    (hq : (normalizeL q).head? = some '~') :
    expand home [(name, val)] p = p.take i ++ val ++ p.drop (i + (name.length + 1)) ∧
      expand home [(name, [])] p = p ∧
      expand home [] q = joinL home ((normalizeL q).drop 1) := by
  have hpne : p ≠ [] := by
    intro he
    rw [he] at hnorm
    exact absurd hnorm (by decide)
  have hlen : ¬p.length ≤ 0 := by
    cases p with
    | nil => exact absurd rfl hpne
    | cons c cs => simp
  refine ⟨?_, ?_, ?_⟩
  · unfold expand
    rw [hnorm]
    simp only [if_neg hlen, if_neg hhead, List.foldl_cons, List.foldl_nil]
    rw [if_neg hval]
    rw [replaceFirstL_eq_firstOccIdx, hocc]
    simp [List.length_cons, Nat.add_comm]
  · unfold expand
    rw [hnorm]
    simp only [if_neg hlen, if_neg hhead, List.foldl_cons, List.foldl_nil]
    simp
  · unfold expand
    have hqne : ¬(normalizeL q).length ≤ 0 := by
      cases hn : normalizeL q with
      | nil => rw [hn] at hq; simp at hq
      | cons c cs => simp
    simp only [if_neg hqne, if_pos hq, List.foldl_nil]

theorem expand_amended_witness :
    expand (("/h").toList) [(("X").toList, ("v").toList)] (("/a/$X/$X").toList)
        = (("/a/$X/$X").toList).take 3 ++ ("v").toList
            ++ (("/a/$X/$X").toList).drop (3 + ((("X").toList).length + 1)) ∧
      expand (("/h").toList) [(("X").toList, [])] (("/a/$X/$X").toList)
        = ("/a/$X/$X").toList ∧
      expand (("/h").toList) [] (("~/b").toList)
        = joinL (("/h").toList) ((normalizeL (("~/b").toList)).drop 1) :=
  expand_amended (("/h").toList) (("X").toList) (("v").toList) (("/a/$X/$X").toList)
    (("~/b").toList) 3 (by decide) (by decide) (by decide) (by decide) (by decide)

/-! ### JSON values and `JSON.parse` (used by `toJson`, src:55-65) -/

inductive Json where
  | null
  | bool (b : Bool)
  | num (lexeme : Str)
  | str (s : Str)
  | arr (elems : List Json)
  | obj (fields : List (Str × Json))
deriving Repr

def skipWs : Str → Str
  | [] => []
  | c :: cs => if c = ' ' || c = '\t' || c = '\n' || c = '\r' then skipWs cs else c :: cs

def hexVal (c : Char) : Option Nat :=
  if c.isDigit then some (c.toNat - 48)
  else if 'a' ≤ c && c ≤ 'f' then some (c.toNat - 87)
  else if 'A' ≤ c && c ≤ 'F' then some (c.toNat - 55)
  else none

def escChar (e : Char) : Option Char :=
  if e = '"' then some '"'
  else if e = '\\' then some '\\'
  else if e = '/' then some '/'
  else if e = 'b' then some (Char.ofNat 8)
  else if e = 'f' then some (Char.ofNat 12)
  else if e = 'n' then some '\n'
  else if e = 'r' then some (Char.ofNat 13)
  else if e = 't' then some '\t'
  else none

def parseStringBody : Nat → Str → Option (Str × Str)
  | 0, _ => none
  | fuel+1, s =>
    match s with
    | [] => none
    | '"' :: rest => some ([], rest)
    | '\\' :: rest =>
      match rest with
      | [] => none
      | e :: rest2 =>
        if e = 'u' then
          match rest2 with
          | h1 :: h2 :: h3 :: h4 :: rest3 =>
            match hexVal h1, hexVal h2, hexVal h3, hexVal h4 with
            | some a, some b, some c, some d =>
              let n := ((a * 16 + b) * 16 + c) * 16 + d
              if 55296 ≤ n && n < 57344 then none
              else (parseStringBody fuel rest3).map (fun p => (Char.ofNat n :: p.1, p.2))
            | _, _, _, _ => none
          | _ => none
        else
          match escChar e with
          | some ch => (parseStringBody fuel rest2).map (fun p => (ch :: p.1, p.2))
          | none => none
    | c :: rest =>
      if c.toNat < 32 then none
      else (parseStringBody fuel rest).map (fun p => (c :: p.1, p.2))

def parseFrac : Str → Option (Str × Str)
  | '.' :: fr =>
    let ds := fr.takeWhile Char.isDigit
    if ds = [] then none else some ('.' :: ds, fr.dropWhile Char.isDigit)
  | s => some ([], s)

def parseExp : Str → Option (Str × Str)
  | [] => some ([], [])
  | c :: r =>
    if c = 'e' || c = 'E' then
      let signAndRest := match r with
        | s2 :: r2 => if s2 = '+' || s2 = '-' then (([s2] : Str), r2) else (([] : Str), r)
        | [] => (([] : Str), r)
      let ds := signAndRest.2.takeWhile Char.isDigit
      if ds = [] then none
      else some (c :: signAndRest.1 ++ ds, signAndRest.2.dropWhile Char.isDigit)
    else some ([], c :: r)

def parseNumber (s : Str) : Option (Str × Str) :=
  let negAndRest := match s with
    | '-' :: r => ((['-'] : Str), r)
    | _ => (([] : Str), s)
  match negAndRest.2 with
  | [] => none
  | c :: rest =>
    if c.isDigit then
      let intAndRest :=
        if c = '0' then ((['0'] : Str), rest)
        else (negAndRest.2.takeWhile Char.isDigit, negAndRest.2.dropWhile Char.isDigit)
      (parseFrac intAndRest.2).bind (fun fr =>
        (parseExp fr.2).map (fun ex =>
          (negAndRest.1 ++ intAndRest.1 ++ fr.1 ++ ex.1, ex.2)))
    else none

mutual

def parseValue : Nat → Str → Option (Json × Str)
  | 0, _ => none
  | fuel+1, s =>
    match skipWs s with
    | 'n' :: 'u' :: 'l' :: 'l' :: rest => some (Json.null, rest)
    | 't' :: 'r' :: 'u' :: 'e' :: rest => some (Json.bool true, rest)
    | 'f' :: 'a' :: 'l' :: 's' :: 'e' :: rest => some (Json.bool false, rest)
    | '"' :: rest =>
      (parseStringBody (rest.length + 1) rest).map (fun p => (Json.str p.1, p.2))
    | '[' :: rest =>
      (match skipWs rest with
       | ']' :: r2 => some (Json.arr [], r2)
       | r2 => (parseElems fuel r2).map (fun p => (Json.arr p.1, p.2)))
    | '\x7b' :: rest =>
      (match skipWs rest with
       | '\x7d' :: r2 => some (Json.obj [], r2)
       | r2 => (parseMembers fuel r2).map (fun p => (Json.obj p.1, p.2)))
    | c :: rest =>
      if c = '-' || c.isDigit then
        (parseNumber (c :: rest)).map (fun p => (Json.num p.1, p.2))
      else none
    | [] => none

def parseElems : Nat → Str → Option (List Json × Str)
  | 0, _ => none
  | fuel+1, s =>
    (parseValue fuel s).bind (fun p =>
      match skipWs p.2 with
      | ',' :: r2 => (parseElems fuel (skipWs r2)).map (fun q => (p.1 :: q.1, q.2))
      | ']' :: r2 => some ([p.1], r2)
      | _ => none)

def parseMembers : Nat → Str → Option (List (Str × Json) × Str)
  | 0, _ => none
  | fuel+1, s =>
    match s with
    | '"' :: r =>
      (parseStringBody (r.length + 1) r).bind (fun kp =>
        match skipWs kp.2 with
        | ':' :: r3 =>
          (parseValue fuel (skipWs r3)).bind (fun vp =>
            match skipWs vp.2 with
            | ',' :: r5 => (parseMembers fuel (skipWs r5)).map (fun q => ((kp.1, vp.1) :: q.1, q.2))
            | '\x7d' :: r5 => some ([(kp.1, vp.1)], r5)
            | _ => none)
        | _ => none)
    | _ => none

end

/-- `JSON.parse`: parse one value consuming the whole input (surrounding
whitespace allowed); `none` models the thrown SyntaxError. -/
def jsonParse (s : Str) : Option Json :=
  (parseValue (s.length + 1) s).bind (fun p => if skipWs p.2 = [] then some p.1 else none)

/-- `toJson` (src:55-65): `JSON.parse` with the catch-all returning `{}`. -/
def toJson (s : Str) : Json := (jsonParse s).getD (Json.obj [])

/-- JS property access `obj.k` on a parsed JSON value: `none` is
`undefined`.  For duplicate keys `JSON.parse` keeps the last occurrence. -/
def jsonGet (j : Json) (k : Str) : Option Json :=
  match j with
  | Json.obj fields => ((fields.reverse).find? (fun p => p.1 == k)).map (fun p => p.2)
  | _ => none

def jsonAsStr : Json → Option Str
  | Json.str s => some s
  | _ => none

/-! ### Download-output parsing and protocol negotiation (src:530-601) -/

/-- JS `String.prototype.split` with a one-character separator: split on
every occurrence, keeping empty pieces. -/
def splitChAux (sep : Char) (cur : Str) : Str → List Str
  | [] => [cur.reverse]
  | c :: rest =>
    if c = sep then cur.reverse :: splitChAux sep [] rest else splitChAux sep (c :: cur) rest

def splitCh (sep : Char) (s : Str) : List Str := splitChAux sep [] s

/-- JS `String.prototype.indexOf` for a one-character needle (`-1` when
absent). -/
def indexOfC (s : Str) (c : Char) : Int :=
  match s.findIdx? (fun d => d = c) with
  | some i => (i : Int)
  | none => -1

/-- JS `String.prototype.lastIndexOf` for a one-character needle. -/
def lastIndexOfC (s : Str) (c : Char) : Int :=
  match (s.reverse).findIdx? (fun d => d = c) with
  | some i => ((s.length - 1 - i : Nat) : Int)
  | none => -1

/-- JS `String.prototype.substring`: negative indices clamp to `0`,
indices beyond the length clamp to the length, and the two bounds are
swapped when `a > b`. -/
def jsSubstring (s : Str) (a b : Int) : Str :=
  let len : Int := (s.length : Int)
  let clamp : Int → Nat := fun x => (if x < 0 then 0 else if x > len then len else x).toNat
  let lo := min (clamp a) (clamp b)
  let hi := max (clamp a) (clamp b)
  (s.drop lo).take (hi - lo)

/-- The single-quote character. -/
def sq : Char := '\x27'

/-- `extractBetween` (src:32-37); the `surround` argument is only ever the
one-character string containing a single quote, modelled as a `Char`. -/
def extractBetween (str : Str) (surround : Char) : Str :=
  jsSubstring str (indexOfC str surround + 1) (lastIndexOfC str surround)

/-- `toLocaleLowerCase` on the ASCII framework names. -/
def toLowerStr (s : Str) : Str := s.map Char.toLower

def TYPE_ERROR : Str := ("TypeError").toList

/-- `resolveKubescapeFramework` (src:297-307): `split(':')`, then the
single-quoted fields of parts 1 and 2.  When the split yields fewer than
three parts the field access gives `undefined`, on which `extractBetween`
throws a TypeError (modelled as `Except.error`). -/
def resolveKubescapeFramework (frameworkOutput : Str) : Except Str KubescapeFramework :=
  let parts := splitCh ':' frameworkOutput
  match parts.get? 1, parts.get? 2 with
  | some p1, some p2 =>
    Except.ok { name := toLowerStr (extractBetween p1 sq),
                location := some (extractBetween p2 sq),
                isInstalled := false }
  | _, _ => Except.error TYPE_ERROR

def digitsToNat (ds : Str) : Nat := ds.foldl (fun n c => n * 10 + (c.toNat - 48)) 0

/-- Parse an optionally `v`-prefixed `major.minor.patch` triple.  The npm
`compare-versions` comparator accepts a wider grammar; the code only ever
compares the detected version token (`v\d+\.\d+\.\d+`, or `unknown`)
against the literal `v2.0.150`, and on that domain the library is
numeric triple comparison, throwing a TypeError on anything else (such as
`unknown`), modelled by `none`. -/
def semverTriple (s : Str) : Option (Nat × Nat × Nat) :=
  let s1 := match s with
    | 'v' :: rest => rest
    | _ => s
  let d1 := s1.takeWhile Char.isDigit
  let r1 := s1.dropWhile Char.isDigit
  if d1 = [] then none else
  match r1 with
  | '.' :: r2 =>
    let d2 := r2.takeWhile Char.isDigit
    let r3 := r2.dropWhile Char.isDigit
    if d2 = [] then none else
    match r3 with
    | '.' :: r4 =>
      let d3 := r4.takeWhile Char.isDigit
      let r5 := r4.dropWhile Char.isDigit
      if d3 = [] || !r5.isEmpty then none
      else some (digitsToNat d1, digitsToNat d2, digitsToNat d3)
    | _ => none
  | _ => none

def tripleCompare (x y : Nat × Nat × Nat) : Int :=
  if x.1 > y.1 then 1 else if x.1 < y.1 then -1
  else if x.2.1 > y.2.1 then 1 else if x.2.1 < y.2.1 then -1
  else if x.2.2 > y.2.2 then 1 else if x.2.2 < y.2.2 then -1 else 0

/-- `compareVersions` from the `compare-versions` package, on the domain
the code uses (see `semverTriple`). -/
def compareVersionsL (a b : Str) : Option Int :=
  match semverTriple a, semverTriple b with
  | some x, some y => some (tripleCompare x y)
  | _, _ => none

/-- The output-protocol threshold version (src:542, 575). -/
def VERSION_JSON_THRESHOLD : Str := ("v2.0.150").toList

def COMMAND_DOWNLOAD_FRAMEWORK : Str := ("download framework").toList

def COMMAND_DOWNLOAD_ARTIFACTS : Str := ("download artifacts").toList

/-- The literal `'framework'` searched for in legacy output. -/
def legacyFrameworkTag : Str := sq :: ("framework").toList ++ [sq]

/-- The replacement inserted by src:551: `'framework': '<name>'`. -/
def legacyFrameworkRep (framework : Str) : Str :=
  legacyFrameworkTag ++ (": ").toList ++ (sq :: framework) ++ [sq]

/-- An outcome of a JS promise whose executor runs inside a `cp.exec`
callback: it can resolve, reject, or the callback can throw an uncaught
exception (which in Node kills the process). -/
inductive PromiseOutcome (α : Type) where
  | resolved (a : α)
  | rejected (msg : Str)
  | crashed (msg : Str)
deriving DecidableEq, Repr

def PromiseOutcome.isResolved {α : Type} : PromiseOutcome α → Bool
  | PromiseOutcome.resolved _ => true
  | _ => false

/-- `Promise.all`: an uncaught callback exception kills the process (the
strongest outcome in the model), otherwise any rejection rejects the
aggregate, otherwise all results in input order.  When several promises
fail, which failure is observed first is timing-dependent in JS; the
model deterministically picks the first in list order, and the theorems
below depend only on the existence of a failure. -/
def promiseAll {α : Type} : List (PromiseOutcome α) → PromiseOutcome (List α)
  | [] => PromiseOutcome.resolved []
  | o :: os =>
    match o with
    | PromiseOutcome.crashed m => PromiseOutcome.crashed m
    | PromiseOutcome.rejected m =>
      (match promiseAll os with
       | PromiseOutcome.crashed m2 => PromiseOutcome.crashed m2
       | _ => PromiseOutcome.rejected m)
    | PromiseOutcome.resolved a =>
      (match promiseAll os with
       | PromiseOutcome.crashed m2 => PromiseOutcome.crashed m2
       | PromiseOutcome.rejected m2 => PromiseOutcome.rejected m2
       | PromiseOutcome.resolved rest => PromiseOutcome.resolved (a :: rest))

/-- The JSON framework descriptor read in both download paths at or above
the threshold (src:543-548, 579-586): `info.name.toLocaleLowerCase()`
throws a TypeError unless `name` is a string; `info.path` that is absent
(or not a string) is the JS `undefined`, modelled `none`. -/
def jsonDescriptorFramework (info : Json) : Except Str KubescapeFramework :=
  match (jsonGet info (("name").toList)).bind jsonAsStr with
  | some n =>
    Except.ok { name := toLowerStr n, isInstalled := false,
                location := (jsonGet info (("path").toList)).bind jsonAsStr }
  | none => Except.error TYPE_ERROR

/-- The parse phase of the per-framework `downloadMissingFrameworks`
callback (src:542-553): JSON from stderr at or above the threshold,
otherwise the legacy single-quoted text on stdout after the src:551
replacement; `compareVersions` throws on an unparsable version. -/
def parseMissingFrameworkOutput (version framework stdout stderr : Str) :
    Except Str KubescapeFramework :=
  match compareVersionsL version VERSION_JSON_THRESHOLD with
  | none => Except.error TYPE_ERROR
  | some c =>
    if 0 ≤ c then jsonDescriptorFramework (toJson stderr)
    else resolveKubescapeFramework
        (replaceFirstL legacyFrameworkTag (legacyFrameworkRep framework) stdout)

/-- The whole per-framework promise of `downloadMissingFrameworks`
(src:531-556): on `err` the promise is rejected, but the callback then
falls through to the parsing code, whose own exception (if any) becomes an
uncaught exception (`crashed`); without `err`, a parse exception likewise
crashes, otherwise the promise resolves. -/
def downloadMissingFrameworkOutcome (version framework : Str) (res : ExecResult) :
    PromiseOutcome KubescapeFramework :=
  match parseMissingFrameworkOutput version framework res.stdout res.stderr with
  | Except.error m => PromiseOutcome.crashed m
  | Except.ok f =>
    if res.err then
      PromiseOutcome.rejected ((("Could not download framework ").toList) ++ framework
        ++ ((". Reason:\n").toList) ++ res.stderr)
    else PromiseOutcome.resolved f

/-- `downloadMissingFrameworks` (src:530-559): one `download framework`
subprocess per requested name, launched in list order, aggregated with
`Promise.all`; `exec` is the world's answer per framework. -/
def downloadMissingFrameworks (version : Str) (required : List Str)
    (exec : Str → ExecResult) : PromiseOutcome (List KubescapeFramework) × List Effect :=
  (promiseAll (required.map (fun fw => downloadMissingFrameworkOutcome version fw (exec fw))),
   required.map (fun fw => Effect.subproc (COMMAND_DOWNLOAD_FRAMEWORK ++ (' ' :: fw))))

/-- In-place mutation `cat[k] = f` of an existing binding. -/
def catUpdate (c : Catalog) (k : Str) (f : KubescapeFramework) : Catalog :=
  c.map (fun p => if p.1 == k then (p.1, f) else p)

/-- The first loop of `installFrameworks` (src:703-710): mark the already
cataloged names installed, collect the rest for download. -/
def markInstalledSplit (cat : Catalog) (frameworks : List Str) : Catalog × List Str :=
  frameworks.foldl
    (fun p fw =>
      match catFind p.1 fw with
      | some f => (catUpdate p.1 fw { f with isInstalled := true }, p.2)
      | none => (p.1, p.2 ++ [fw]))
    (cat, [])

/-- `installFrameworks` (src:702-718): returns the promise outcome, the
catalog state afterwards (`this._frameworks`), and the subprocess
effects.  On a rejection or an uncaught exception the merge
(`appendToFrameworks`) is never reached. -/
def installFrameworks (version : Str) (cat : Catalog) (frameworks : List Str)
    (exec : Str → ExecResult) : PromiseOutcome Unit × Catalog × List Effect :=
  let ms := markInstalledSplit cat frameworks
  if ms.2.isEmpty then (PromiseOutcome.resolved (), ms.1, [])
  else
    match downloadMissingFrameworks version ms.2 exec with
    | (PromiseOutcome.resolved fws, effs) =>
      (PromiseOutcome.resolved (), appendToFrameworks ms.1 fws, effs)
    | (PromiseOutcome.rejected m, effs) => (PromiseOutcome.rejected m, ms.1, effs)
    | (PromiseOutcome.crashed m, effs) => (PromiseOutcome.crashed m, ms.1, effs)

/-- JS regex `.`: any character except a line terminator. -/
def jsDot (c : Char) : Bool := !(c = '\n' || c = '\x0d')

/-- All matches of the global regex `/\'framework'.+/g` on stdout
(src:573): at each position where the literal `'framework'` is followed
by at least one non-newline character, the greedy match extends to the
end of the line; scanning resumes after the match (non-overlapping), or
one character further when no match starts here. -/
def legacyMatchesAux : Nat → Str → List Str
  | 0, _ => []
  | _, [] => []
  | fuel+1, c :: cs =>
    if legacyFrameworkTag.isPrefixOf (c :: cs) then
      let after := (c :: cs).drop legacyFrameworkTag.length
      let line := after.takeWhile jsDot
      if line = [] then legacyMatchesAux fuel cs
      else (legacyFrameworkTag ++ line) :: legacyMatchesAux fuel (after.dropWhile jsDot)
    else legacyMatchesAux fuel cs

def legacyMatches (s : Str) : List Str := legacyMatchesAux s.length s

/-- JS loose equality `info.k == "<val>"` for a parsed JSON field: true
exactly when the field holds that string. -/
def jsonFieldEqStr (info : Json) (key val : Str) : Bool :=
  match (jsonGet info key).bind jsonAsStr with
  | some s => s == val
  | none => false

/-- One stderr line of the JSON bulk-download branch (src:578-587):
`toJson(line)`, kept only when `info.artifact == "framework"`; building
the record throws unless `info.name` is a string. -/
def parseFrameworkLine (line : Str) : Except Str (Option KubescapeFramework) :=
  let info := toJson line
  if jsonFieldEqStr info (("artifact").toList) (("framework").toList) then
    match jsonDescriptorFramework info with
    | Except.ok f => Except.ok (some f)
    | Except.error m => Except.error m
  else Except.ok none

/-- The stderr-lines fold of the bulk download JSON branch (src:577-587). -/
def jsonLinesFrameworks (stderr : Str) : Except Str (List KubescapeFramework) :=
  (splitCh '\n' stderr).foldl
    (fun acc line => acc.bind (fun l => (parseFrameworkLine line).map (fun o => l ++ o.toList)))
    (Except.ok [])

/-- `resolveKubescapeFrameworks` (src:309-311), with the per-element
TypeError propagated (JS `map` evaluates left to right; the first throw
wins). -/
def resolveKubescapeFrameworksE : List Str → Except Str (List KubescapeFramework)
  | [] => Except.ok []
  | o :: os =>
    (resolveKubescapeFramework o).bind (fun f =>
      (resolveKubescapeFrameworksE os).map (fun fs => f :: fs))

/-- The parse phase of the `downloadAllFrameworks` callback (src:567-599):
`compareVersions` is evaluated first (throwing on an unparsable version);
the JSON branch is taken at or above the threshold, or when stdout has no
legacy `'framework'` line; otherwise the legacy matches are resolved. -/
def parseAllFrameworksOutput (version stdout stderr : Str) :
    Except Str (List KubescapeFramework) :=
  match compareVersionsL version VERSION_JSON_THRESHOLD with
  | none => Except.error TYPE_ERROR
  | some c =>
    if 0 ≤ c || (legacyMatches stdout).isEmpty then jsonLinesFrameworks stderr
    else resolveKubescapeFrameworksE (legacyMatches stdout)

/-- `downloadAllFrameworks` (src:561-601): a single `download artifacts`
subprocess; on `err` the callback throws `new Error` (uncaught — the
promise never settles), as does any parse exception. -/
def downloadAllFrameworks (version : Str) (res : ExecResult) :
    PromiseOutcome (List KubescapeFramework) × List Effect :=
  ((if res.err then
      PromiseOutcome.crashed ((("Unable to download artifacts:\n").toList) ++ res.stderr)
    else
      match parseAllFrameworksOutput version res.stdout res.stderr with
      | Except.error m => PromiseOutcome.crashed m
      | Except.ok fs => PromiseOutcome.resolved fs),
   [Effect.subproc COMMAND_DOWNLOAD_ARTIFACTS])

/-- Specification-side description of one kept bulk-download stderr line:
the parsed JSON object whose `artifact` field equals the string
`framework`, turned into a framework record (requiring a string `name`). -/
def keptFrameworkLine (line : Str) : Option KubescapeFramework :=
  let info := toJson line
  if jsonFieldEqStr info (("artifact").toList) (("framework").toList) then
    match jsonDescriptorFramework info with
    | Except.ok f => some f
    | Except.error _ => none
  else none

theorem parseFrameworkLine_ok {line : Str} {o : Option KubescapeFramework}
    (h : parseFrameworkLine line = Except.ok o) : o = keptFrameworkLine line := by
  unfold parseFrameworkLine at h
  unfold keptFrameworkLine
  by_cases hb : jsonFieldEqStr (toJson line) (("artifact").toList) (("framework").toList) = true
  · rw [if_pos hb] at h ⊢
    cases hd : jsonDescriptorFramework (toJson line) with
    | ok f => rw [hd] at h; injection h with h; rw [← h]
    | error m => rw [hd] at h; simp at h
  · rw [if_neg hb] at h ⊢
    injection h with h
    rw [← h]

theorem jsonLinesFold_error (m : Str) (lines : List Str) :
    lines.foldl
        (fun acc line => acc.bind (fun l => (parseFrameworkLine line).map (fun o => l ++ o.toList)))
        (Except.error m) = Except.error m := by
  induction lines with
  | nil => rfl
  | cons l ls ih => simpa [Except.bind] using ih

theorem jsonLinesFold_ok (lines : List Str) (acc fs : List KubescapeFramework)
    (h : lines.foldl
        (fun acc line => acc.bind (fun l => (parseFrameworkLine line).map (fun o => l ++ o.toList)))
        (Except.ok acc) = Except.ok fs) :
    fs = acc ++ lines.filterMap keptFrameworkLine := by
  induction lines generalizing acc with
  | nil =>
    injection h with h
    simp [h]
  | cons l ls ih =>
    rw [List.foldl_cons] at h
    cases hp : parseFrameworkLine l with
    | error m =>
      rw [show ((Except.ok acc : Except Str (List KubescapeFramework)).bind
          (fun la => (parseFrameworkLine l).map (fun o => la ++ o.toList)))
          = Except.error m by simp [Except.bind, hp, Except.map]] at h
      rw [jsonLinesFold_error] at h
      simp at h
    | ok o =>
      rw [show ((Except.ok acc : Except Str (List KubescapeFramework)).bind
          (fun la => (parseFrameworkLine l).map (fun o => la ++ o.toList)))
          = Except.ok (acc ++ o.toList) by simp [Except.bind, hp, Except.map]] at h
      have := ih (acc ++ o.toList) h
      rw [this, List.filterMap_cons, ← parseFrameworkLine_ok hp]
      cases o <;> simp

/-- On success the JSON bulk-download branch returns exactly the stderr
lines whose `artifact` field equals `framework`. -/
theorem jsonLinesFrameworks_ok {stderr : Str} {fs : List KubescapeFramework}
    (h : jsonLinesFrameworks stderr = Except.ok fs) :
    fs = (splitCh '\n' stderr).filterMap keptFrameworkLine := by
  have := jsonLinesFold_ok (splitCh '\n' stderr) [] fs h
  simpa using this

/-- C5: framework-download output parsing branches on the detected tool
version against the threshold v2.0.150.  Strictly below the threshold the
single-quoted key:value text on stdout is parsed (in bulk download, only
when stdout has a legacy `'framework'` line); at or above the threshold —
or, in bulk download, when stdout matches no legacy line — results are
parsed as JSON from stderr, the bulk download keeping exactly the lines
whose `artifact` field equals `framework`. -/
theorem download_parse_protocol (version framework stdout stderr : Str) (c : Int)
    (fs : List KubescapeFramework)
    (hc : compareVersionsL version VERSION_JSON_THRESHOLD = some c)
    (hjson : jsonLinesFrameworks stderr = Except.ok fs) :
    (c < 0 → parseMissingFrameworkOutput version framework stdout stderr =
        resolveKubescapeFramework
          (replaceFirstL legacyFrameworkTag (legacyFrameworkRep framework) stdout)) ∧
      (0 ≤ c → parseMissingFrameworkOutput version framework stdout stderr =
        jsonDescriptorFramework (toJson stderr)) ∧
      ((0 ≤ c ∨ legacyMatches stdout = []) →
        parseAllFrameworksOutput version stdout stderr =
          Except.ok ((splitCh '\n' stderr).filterMap keptFrameworkLine)) ∧
      (c < 0 → legacyMatches stdout ≠ [] →
        parseAllFrameworksOutput version stdout stderr =
          resolveKubescapeFrameworksE (legacyMatches stdout)) := by
  refine ⟨?_, ?_, ?_, ?_⟩
  · intro hlt
    unfold parseMissingFrameworkOutput
    rw [hc]
    dsimp only
    rw [if_neg (by omega)]
  · intro hle
    unfold parseMissingFrameworkOutput
    rw [hc]
    dsimp only
    rw [if_pos hle]
  · intro hor
    unfold parseAllFrameworksOutput
    rw [hc]
    dsimp only
    have hcond : (0 ≤ c || (legacyMatches stdout).isEmpty) = true := by
      rcases hor with hle | hemp
      · simp [hle]
      · simp [hemp]
    rw [if_pos hcond]
    rw [hjson, jsonLinesFrameworks_ok hjson]
  · intro hlt hne
    unfold parseAllFrameworksOutput
    rw [hc]
    dsimp only
    have hcond : (0 ≤ c || (legacyMatches stdout).isEmpty) = false := by
      have h1 : ¬(0 ≤ c) := by omega
      have h2 : (legacyMatches stdout).isEmpty = false := by
        cases hl : legacyMatches stdout with
        | nil => exact absurd hl hne
        | cons x xs => simp
      simp [h1, h2]
    rw [if_neg (by simp [hcond])]

theorem download_parse_protocol_witness :
    parseAllFrameworksOutput (("v2.0.100").toList)
        (("x\x27framework\x27 : \x27nsa\x27 : \x27/p/n.json\x27").toList)
        (("\x7b\"artifact\":\"framework\",\"name\":\"NSA\",\"path\":\"/p/nsa.json\"\x7d").toList) =
      resolveKubescapeFrameworksE
        (legacyMatches (("x\x27framework\x27 : \x27nsa\x27 : \x27/p/n.json\x27").toList)) :=
  (download_parse_protocol (("v2.0.100").toList) (("nsa").toList)
      (("x\x27framework\x27 : \x27nsa\x27 : \x27/p/n.json\x27").toList)
      (("\x7b\"artifact\":\"framework\",\"name\":\"NSA\",\"path\":\"/p/nsa.json\"\x7d").toList)
      (-1)
      [{ name := ("nsa").toList, isInstalled := false,
         location := some (("/p/nsa.json").toList) }]
      (by decide) (by decide)).2.2.2 (by decide) (by decide)

theorem promiseAll_isResolved_mem {α : Type} (os : List (PromiseOutcome α))
    (h : (promiseAll os).isResolved = true) : ∀ o ∈ os, o.isResolved = true := by
  induction os with
  | nil =>
    intro o ho
    simp at ho
  | cons o' os' ih =>
    intro o ho
    have hsplit : o'.isResolved = true ∧ (promiseAll os').isResolved = true := by
      cases o' with
      | crashed m => simp [promiseAll, PromiseOutcome.isResolved] at h
      | rejected m =>
        cases hrec : promiseAll os' <;>
          simp [promiseAll, hrec, PromiseOutcome.isResolved] at h
      | resolved a =>
        cases hrec : promiseAll os' with
        | crashed m => simp [promiseAll, hrec, PromiseOutcome.isResolved] at h
        | rejected m => simp [promiseAll, hrec, PromiseOutcome.isResolved] at h
        | resolved rest => exact ⟨rfl, rfl⟩
    rcases List.mem_cons.mp ho with he | hm
    · rw [he]; exact hsplit.1
    · exact ih hsplit.2 o hm

/-- The concrete world for the C4 scenario: framework `a`'s subprocess
fails (its legacy output still parses, so its promise is cleanly
rejected) while framework `b`'s subprocess succeeds. -/
def execC4 : Str → ExecResult := fun fw =>
  if fw = ("a").toList then
    { err := true, stdout := ("\x27framework\x27 saved: \x27/p/a.json\x27").toList,
      stderr := ("boom").toList }
  else
    { err := false, stdout := ("\x27framework\x27 saved: \x27/p/b.json\x27").toList,
      stderr := [] }

/-- C4 as stated is false at a concrete input: downloading `a` (subprocess
fails) and `b` (succeeds) against the empty catalog and a pre-v2.0.150
tool, `b`'s own promise resolves, yet `Promise.all` rejects,
`installFrameworks` propagates the rejection, the merge is skipped, and
the catalog afterwards does NOT contain `b`. -/
theorem installFrameworks_counterexample :
    downloadMissingFrameworkOutcome (("v2.0.100").toList) (("b").toList)
        (execC4 (("b").toList))
      = PromiseOutcome.resolved
          { name := ['b'], isInstalled := false, location := some (("/p/b.json").toList) } ∧
      (installFrameworks (("v2.0.100").toList) [] [("a").toList, ("b").toList] execC4).1
        = PromiseOutcome.rejected
            (("Could not download framework a. Reason:\nboom").toList) ∧
      catFind
          (installFrameworks (("v2.0.100").toList) [] [("a").toList, ("b").toList] execC4).2.1
          (("b").toList)
        = none := by
  refine ⟨by decide, by decide, by decide⟩

/-- C4 amended: when any selective framework download fails — a rejected
subprocess, or a callback exception — the caller observes a failure
(`installFrameworks` does not resolve: the aggregate promise rejects, or
the uncaught exception kills the process) and no download result is
merged: the catalog afterwards is exactly the catalog left by the
mark-installed loop, so in particular it does not gain any successfully
downloaded framework (whose file may nonetheless exist on disk). -/
theorem installFrameworks_failure_no_partial_merge
    (version : Str) (cat : Catalog) (frameworks : List Str) (exec : Str → ExecResult)
    (fw : Str) (hmem : fw ∈ (markInstalledSplit cat frameworks).2)
    (hfail : (downloadMissingFrameworkOutcome version fw (exec fw)).isResolved = false) :
    (installFrameworks version cat frameworks exec).1.isResolved = false ∧
      (installFrameworks version cat frameworks exec).2.1
        = (markInstalledSplit cat frameworks).1 := by
  have hne : ((markInstalledSplit cat frameworks).2).isEmpty = false := by
    cases hl : (markInstalledSplit cat frameworks).2 with
    | nil => rw [hl] at hmem; simp at hmem
    | cons x xs => simp
  have hnr : (promiseAll (((markInstalledSplit cat frameworks).2).map
      (fun f => downloadMissingFrameworkOutcome version f (exec f)))).isResolved = false := by
    cases hres : (promiseAll (((markInstalledSplit cat frameworks).2).map
        (fun f => downloadMissingFrameworkOutcome version f (exec f)))).isResolved with
    | false => rfl
    | true =>
      have := promiseAll_isResolved_mem _ hres
        (downloadMissingFrameworkOutcome version fw (exec fw))
        (List.mem_map_of_mem _ hmem)
      rw [hfail] at this
      simp at this
  unfold installFrameworks
  rw [if_neg (by simp [hne])]
  unfold downloadMissingFrameworks
  cases hp : promiseAll (((markInstalledSplit cat frameworks).2).map
      (fun f => downloadMissingFrameworkOutcome version f (exec f))) with
  | resolved fws => rw [hp] at hnr; simp [PromiseOutcome.isResolved] at hnr
  | rejected m => exact ⟨rfl, rfl⟩
  | crashed m => exact ⟨rfl, rfl⟩

theorem installFrameworks_failure_witness :
    (installFrameworks (("v2.0.100").toList) [] [("a").toList, ("b").toList] execC4).1.isResolved
        = false ∧
      (installFrameworks (("v2.0.100").toList) [] [("a").toList, ("b").toList] execC4).2.1
        = (markInstalledSplit [] [("a").toList, ("b").toList]).1 :=
  installFrameworks_failure_no_partial_merge (("v2.0.100").toList) []
    [("a").toList, ("b").toList] execC4 (("a").toList) (by decide) (by decide)

/-! ### The Downloader, `downloadFile` (src:160-209) -/

/-- `decodeURIComponent`, modelled for ASCII percent-escapes: `%XX` with
two hex digits below 0x80 decodes to that character; malformed escapes
throw a URIError (`none`).  Multi-byte UTF-8 escape sequences are outside
the model (the inputs are file-system paths). -/
def decodeURIComponentL : Str → Option Str
  | [] => some []
  | '%' :: rest =>
    (match rest with
     | h1 :: h2 :: rest2 =>
       (match hexVal h1, hexVal h2 with
        | some a, some b =>
          if a * 16 + b < 128 then
            (decodeURIComponentL rest2).map (fun s => Char.ofNat (a * 16 + b) :: s)
          else none
        | _, _ => none)
     | _ => none)
  | c :: rest => (decodeURIComponentL rest).map (fun s => c :: s)

/-- `path.resolve(dir, file)` for POSIX with an explicit working
directory, following Node's algorithm: segments are prepended right to
left until one is absolute (the working directory last), each prefixed
with a separator, then the joined path is segment-normalized. -/
def resolveTwo (cwd dir file : Str) : Str :=
  let step := fun (st : Str × Bool) (p : Str) =>
    if st.2 || p.isEmpty then st else (p ++ ('/' :: st.1), p.head? = some '/')
  let st1 := step (([] : Str), false) file
  let st2 := step st1 dir
  let st3 := step st2 cwd
  let body := List.intercalate ['/'] (normSegs (!st3.2) [] (splitSegs st3.1))
  if st3.2 then (if body = [] then ['/'] else '/' :: body)
  else (if body = [] then ['.'] else body)

/-- The outcome of the `fetch` call in `downloadFile`: the request can
throw (network failure, or cancellation through the abort signal), or
produce a response with the given `ok` and body-presence flags. -/
inductive FetchOutcome where
  | fetchThrow
  | response (ok : Bool) (hasBody : Bool)
deriving DecidableEq, Repr

/-- The outcome of streaming the response body into the file: success, or
a mid-transfer error (a network fault, or cancellation observed by the
stream). -/
inductive StreamOutcome where
  | streamOk
  | streamError
deriving DecidableEq, Repr

/-- The world as seen by one `downloadFile` call. -/
structure DownloadEnv where
  mkdirOk : Bool
  fetch : FetchOutcome
  stream : StreamOutcome
  unlinkFails : Bool
  chmodOk : Bool
deriving DecidableEq, Repr

/-- File-system and network operations performed by `downloadFile`, in
program order.  `unlink` is recorded even when the deletion itself fails:
the `(_) => null` callback ignores the failure. -/
inductive DlOp where
  | mkdir (dir : Str)
  | fetchUrl (url : Str)
  | writeStart (path : Str)
  | unlink (path : Str)
  | chmod (path : Str)
deriving DecidableEq, Repr

/-- `downloadFile` (src:160-209).  Everything inside the `ui.progress`
body runs under try/catch/finally, which collapses any throw — failed
directory creation, a failed or body-less response, a mid-stream error,
cancellation surfacing through fetch or the stream, a failed chmod — into
`localPath = ""` returned from the `finally`.  The one statement outside
the try, `decodeURIComponent(downloadDir)` (src:163), can throw a
URIError that escapes, modelled as `Except.error`. -/
def downloadFile (cwd url downloadDir fileName : Str) (executable : Bool)
    (env : DownloadEnv) : Except Str (Str × List DlOp) :=
  match decodeURIComponentL downloadDir with
  | none => Except.error (("URIError").toList)
  | some decodedTargetDir =>
    let localPath := resolveTwo cwd decodedTargetDir fileName
    let ops1 := [DlOp.mkdir decodedTargetDir]
    if !env.mkdirOk then Except.ok ([], ops1)
    else
      let ops2 := ops1 ++ [DlOp.fetchUrl url]
      match env.fetch with
      | FetchOutcome.fetchThrow => Except.ok ([], ops2)
      | FetchOutcome.response ok hasBody =>
        if !ok || !hasBody then Except.ok ([], ops2)
        else
          let ops3 := ops2 ++ [DlOp.writeStart localPath]
          match env.stream with
          | StreamOutcome.streamError => Except.ok ([], ops3 ++ [DlOp.unlink localPath])
          | StreamOutcome.streamOk =>
            if executable then
              (if env.chmodOk then Except.ok (localPath, ops3 ++ [DlOp.chmod localPath])
               else Except.ok ([], ops3 ++ [DlOp.chmod localPath]))
            else Except.ok (localPath, ops3)

/-- The success condition of one `downloadFile` call. -/
def dlSuccess (env : DownloadEnv) (executable : Bool) : Bool :=
  env.mkdirOk
    && (match env.fetch with
        | FetchOutcome.response true true => true
        | _ => false)
    && (env.stream = StreamOutcome.streamOk)
    && (!executable || env.chmodOk)

def exceptOkD {ε α : Type} (dflt : α) : Except ε α → α
  | Except.ok a => a
  | Except.error _ => dflt

def isOkE {ε α : Type} : Except ε α → Bool
  | Except.ok _ => true
  | Except.error _ => false

/-- C6: `downloadFile` never lets a failure escape as a thrown fault —
every failure mode (unsuccessful response, missing body, mid-stream
error, cancellation surfacing through fetch or the stream, and also
failed directory creation or chmod) collapses to the empty-string return
— and on a mid-stream error the partial file is deleted (best-effort,
deletion failure ignored: the trace records the `unlink` regardless of
`env.unlinkFails`) before the error is converted into the empty string. -/
theorem downloadFile_failure_semantics (cwd url downloadDir fileName d : Str)
    (executable : Bool) (env : DownloadEnv)
    (hdec : decodeURIComponentL downloadDir = some d) :
    isOkE (downloadFile cwd url downloadDir fileName executable env) = true ∧
      (exceptOkD ([], []) (downloadFile cwd url downloadDir fileName executable env)).1
        = (if dlSuccess env executable then resolveTwo cwd d fileName else []) ∧
      (env.mkdirOk = true → env.fetch = FetchOutcome.response true true →
        env.stream = StreamOutcome.streamError →
        (exceptOkD ([], []) (downloadFile cwd url downloadDir fileName executable env)).1 = [] ∧
          DlOp.unlink (resolveTwo cwd d fileName)
            ∈ (exceptOkD ([], []) (downloadFile cwd url downloadDir fileName executable env)).2) := by
  unfold downloadFile
  rw [hdec]
  obtain ⟨mk, fe, stm, ul, ch⟩ := env
  refine ⟨?_, ?_, ?_⟩ <;>
    cases mk <;> cases fe <;> cases stm <;> cases executable <;> cases ch <;>
      first
        | (rename_i ok hasBody
           cases ok <;> cases hasBody <;> simp_all [isOkE, exceptOkD, dlSuccess])
        | simp_all [isOkE, exceptOkD, dlSuccess]

theorem downloadFile_failure_witness :
    isOkE (downloadFile (("/w").toList) (("https://x/y").toList) (("/dl").toList)
        (("kubescape").toList) true
        { mkdirOk := true, fetch := FetchOutcome.response true true,
          stream := StreamOutcome.streamError, unlinkFails := true, chmodOk := true }) = true ∧
      (exceptOkD ([], []) (downloadFile (("/w").toList) (("https://x/y").toList)
          (("/dl").toList) (("kubescape").toList) true
          { mkdirOk := true, fetch := FetchOutcome.response true true,
            stream := StreamOutcome.streamError, unlinkFails := true, chmodOk := true })).1
        = (if dlSuccess
              { mkdirOk := true, fetch := FetchOutcome.response true true,
                stream := StreamOutcome.streamError, unlinkFails := true, chmodOk := true } true
           then resolveTwo (("/w").toList) (("/dl").toList) (("kubescape").toList) else []) ∧
      (({ mkdirOk := true, fetch := FetchOutcome.response true true,
          stream := StreamOutcome.streamError, unlinkFails := true,
          chmodOk := true } : DownloadEnv).mkdirOk = true →
        ({ mkdirOk := true, fetch := FetchOutcome.response true true,
           stream := StreamOutcome.streamError, unlinkFails := true,
           chmodOk := true } : DownloadEnv).fetch = FetchOutcome.response true true →
        ({ mkdirOk := true, fetch := FetchOutcome.response true true,
           stream := StreamOutcome.streamError, unlinkFails := true,
           chmodOk := true } : DownloadEnv).stream = StreamOutcome.streamError →
        (exceptOkD ([], []) (downloadFile (("/w").toList) (("https://x/y").toList)
            (("/dl").toList) (("kubescape").toList) true
            { mkdirOk := true, fetch := FetchOutcome.response true true,
              stream := StreamOutcome.streamError, unlinkFails := true, chmodOk := true })).1
          = [] ∧
          DlOp.unlink (resolveTwo (("/w").toList) (("/dl").toList) (("kubescape").toList))
            ∈ (exceptOkD ([], []) (downloadFile (("/w").toList) (("https://x/y").toList)
                (("/dl").toList) (("kubescape").toList) true
                { mkdirOk := true, fetch := FetchOutcome.response true true,
                  stream := StreamOutcome.streamError, unlinkFails := true,
                  chmodOk := true })).2) :=
  downloadFile_failure_semantics (("/w").toList) (("https://x/y").toList) (("/dl").toList)
    (("kubescape").toList) (("/dl").toList) true
    { mkdirOk := true, fetch := FetchOutcome.response true true,
      stream := StreamOutcome.streamError, unlinkFails := true, chmodOk := true }
    (by decide)

/-! ### Scan invocation result handling (src:727-830) -/

/-- JS property assignment `obj[k] = v` on a parsed JSON value: an
existing binding is overwritten in place, a missing one is appended;
assignment on a non-object primitive is silently ignored (non-strict
mode).  Duplicate keys (possible after `JSON.parse` of duplicate-keyed
text) are all overwritten, keeping reads consistent. -/
def jsonSet (j : Json) (k : Str) (v : Json) : Json :=
  match j with
  | Json.obj fields =>
    if (fields.find? (fun p => p.1 == k)).isSome then
      Json.obj (fields.map (fun p => if p.1 == k then (p.1, v) else p))
    else Json.obj (fields ++ [(k, v)])
  | other => other

/-- Whether a mantissa-and-exponent JSON number lexeme denotes zero (all
mantissa digits are `0`).  Floating-point under/overflow (such as
`1e-400`, which is `0` as a JS number) is not modelled. -/
def numLexIsZero (lex : Str) : Bool :=
  let mantissa := lex.takeWhile (fun c => !(c = 'e' || c = 'E'))
  (mantissa.filter Char.isDigit).all (fun c => c = '0')

/-- JS falsiness of a `JSON.parse` result (`!report`). -/
def jsFalsy : Json → Bool
  | Json.null => true
  | Json.bool b => !b
  | Json.str s => s.isEmpty
  | Json.num lex => numLexIsZero lex
  | _ => false

/-- One entry of `Object.entries(report.summaryDetails.controls)` enriched
per src:824-829: when the controls map has the id, `description` and
`remediation` are assigned from the map's control (an absent field there
is the JS `undefined`, modelled here as storing `Json.null`). -/
def enrichControl (controlsMap : List (Str × Json)) (e : Str × Json) : Str × Json :=
  match (controlsMap.find? (fun p => p.1 == e.1)).map (fun p => p.2) with
  | some ctl =>
    (e.1, jsonSet (jsonSet e.2 (("description").toList)
            ((jsonGet ctl (("description").toList)).getD Json.null))
          (("remediation").toList)
          ((jsonGet ctl (("remediation").toList)).getD Json.null))
  | none => e

/-- `appendControlsInformationToV2Report` (src:822-830): iterates
`Object.entries(report.summaryDetails.controls)` and enriches each entry
in place.  A report without `summaryDetails`, or whose `summaryDetails`
is not an object with a `controls` member (`undefined.controls`,
`Object.entries(undefined)`, `Object.entries(null)`), throws a TypeError.
A `controls` value that is a non-null primitive yields no entries and the
report is returned unchanged (array- or string-valued `controls`, whose
numeric-index entries JS would walk, are outside the model: reports are
JSON objects). -/
def appendControlsInfo (controlsMap : List (Str × Json)) (report : Json) : Except Str Json :=
  match jsonGet report (("summaryDetails").toList) with
  | none => Except.error TYPE_ERROR
  | some sd =>
    match jsonGet sd (("controls").toList) with
    | none => Except.error TYPE_ERROR
    | some ctrls =>
      match ctrls with
      | Json.null => Except.error TYPE_ERROR
      | Json.obj entries =>
        Except.ok (jsonSet report (("summaryDetails").toList)
          (jsonSet sd (("controls").toList)
            (Json.obj (entries.map (enrichControl controlsMap)))))
      | _ => Except.ok report

/-- The result-handling tail of the `cp.exec` callback shared by
`scanYaml` (src:747-761) and `scanCluster` (src:802-816).  A non-zero
exit only logs an error (the first component records whether `ui.error`
fired) and the flow continues: the report file is read with
`fs.readFileSync` and parsed with the bare `JSON.parse` (not the guarded
`toJson`) — a missing file (`reportFile = none`) or unparsable content
throws inside the `async` callback, an unhandled rejection after which
the enclosing scan promise never settles, so the caller receives nothing
(modelled `Except.error`).  A falsy parsed report resolves the empty
object; any other report is enriched (which itself throws on a report
without `summaryDetails.controls`) and resolved. -/
def scanResultOf (err : Bool) (reportFile : Option Str)
    (controlsMap : List (Str × Json)) : Bool × Except Str Json :=
  (err,
   match reportFile with
   | none => Except.error (("ENOENT").toList)
   | some content =>
     match jsonParse content with
     | none => Except.error (("SyntaxError").toList)
     | some report =>
       if jsFalsy report then Except.ok (Json.obj [])
       else appendControlsInfo controlsMap report)

/-- C7: the first half of the claim holds — a non-zero subprocess exit is
logged but not fatal, the result file is still read and parsed, and a
valid report is resolved (first conjunct) — but the second half fails on
the code: a result file with unparsable content, or a missing result
file, makes the bare `JSON.parse` / `fs.readFileSync` throw inside the
callback instead of resolving the empty object, so the caller receives no
structured report at all (conjuncts two and three); only a file parsing
to a falsy value (such as `null`) reaches the intended empty-object
branch (fourth conjunct).  The code's own `not valid response was given`
branch (src:754-757, 809-812) documents the intent that an invalid
report resolve the empty object. -/
theorem scan_invalid_report_code_bug :
    scanResultOf true
        (some (("\x7b\"summaryDetails\":\x7b\"controls\":\x7b\x7d\x7d\x7d").toList)) []
      = (true, Except.ok (Json.obj [((("summaryDetails").toList),
          Json.obj [((("controls").toList), Json.obj [])])])) ∧
      scanResultOf false (some (("garbage").toList)) []
        = (false, Except.error (("SyntaxError").toList)) ∧
      scanResultOf false none [] = (false, Except.error (("ENOENT").toList)) ∧
      scanResultOf false (some (("null").toList)) [] = (false, Except.ok (Json.obj [])) :=
  ⟨rfl, rfl, rfl, rfl⟩

/-! ### Active-set selection (src:948-956) -/

/-- The active-set selection step of `setup` (src:948-956): a missing
(undefined) scan list — the JS `!scanFrameworks`, which an empty array
does NOT satisfy — or a list containing the `all` sentinel selects every
cataloged name; otherwise the listed names are marked, and a listed name
that is not cataloged throws a TypeError
(`undefined.isInstalled = true`). -/
def selectScanFrameworks (cfg : Option (List Str)) (cat : Catalog) : Except Str Catalog :=
  let scanFrameworks :=
    match cfg with
    | none => catKeys cat
    | some l => if l.contains (("all").toList) then catKeys cat else l
  scanFrameworks.foldl
    (fun acc name =>
      acc.bind (fun c =>
        match catFind c name with
        | some f => Except.ok (catUpdate c name { f with isInstalled := true })
        | none => Except.error TYPE_ERROR))
    (Except.ok cat)

/-- The same marking loop without the absent-name fault (a missing name is
skipped): coincides with the loop whenever every name is cataloged. -/
def markNames (cat : Catalog) (names : List Str) : Catalog :=
  names.foldl
    (fun c name =>
      match catFind c name with
      | some f => catUpdate c name { f with isInstalled := true }
      | none => c)
    cat

theorem catFind_catUpdate (c : Catalog) (n : Str) (g : KubescapeFramework) (m : Str) :
    catFind (catUpdate c n g) m =
      (if n = m then (catFind c m).map (fun _ => g) else catFind c m) := by
  induction c with
  | nil => by_cases h : n = m <;> simp [catUpdate, catFind, h]
  | cons p ps ih =>
    by_cases hpn : p.1 = n
    · by_cases hnm : n = m
      · subst hnm
        simp [catUpdate, catFind, List.find?, hpn, beq_iff_eq] at ih ⊢
      · have hpm : ¬(p.1 = m) := by rw [hpn]; exact hnm
        simp only [catUpdate, List.map_cons, catFind, List.find?] at ih ⊢
        rw [if_pos (beq_iff_eq.mpr hpn)]
        simp only [beq_eq_false_iff_ne.mpr hpm, if_neg hnm] at ih ⊢
        have := ih
        simp only [catUpdate, catFind] at this
        simpa [beq_eq_false_iff_ne.mpr hpm, if_neg hnm] using this
    · by_cases hpm : p.1 = m
      · have hnm : ¬(n = m) := by intro he; exact hpn (he ▸ hpm)
        simp [catUpdate, catFind, List.find?, beq_eq_false_iff_ne.mpr hpn,
          beq_iff_eq.mpr hpm, hnm]
      · have h1 := ih
        simp only [catUpdate, catFind] at h1 ⊢
        simp only [List.map_cons, List.find?, beq_eq_false_iff_ne.mpr hpn,
          beq_eq_false_iff_ne.mpr hpm]
        by_cases hnm : n = m <;> simp only [hnm, if_pos, if_neg] at h1 ⊢ <;>
          simpa [beq_eq_false_iff_ne.mpr hpm] using h1

theorem catFind_catUpdate_isSome (c : Catalog) (n : Str) (g : KubescapeFramework) (m : Str) :
    (catFind (catUpdate c n g) m).isSome = (catFind c m).isSome := by
  rw [catFind_catUpdate]
  by_cases h : n = m
  · rw [if_pos h]
    cases catFind c m <;> simp
  · rw [if_neg h]

theorem selectFold_eq_markNames (names : List Str) (cat : Catalog)
    (h : names.all (fun n => (catFind cat n).isSome) = true) :
    names.foldl
        (fun acc name =>
          acc.bind (fun c =>
            match catFind c name with
            | some f => Except.ok (catUpdate c name { f with isInstalled := true })
            | none => Except.error TYPE_ERROR))
        (Except.ok cat)
      = Except.ok (markNames cat names) := by
  induction names generalizing cat with
  | nil => rfl
  | cons n ns ih =>
    rw [List.all_cons] at h
    obtain ⟨h1, h2⟩ := Bool.and_eq_true_iff.mp h
    cases hf : catFind cat n with
    | none => rw [hf] at h1; simp at h1
    | some f =>
      rw [List.foldl_cons]
      have hstep : ((Except.ok cat : Except Str Catalog).bind (fun c =>
          match catFind c n with
          | some f => Except.ok (catUpdate c n { f with isInstalled := true })
          | none => Except.error TYPE_ERROR))
          = Except.ok (catUpdate cat n { f with isInstalled := true }) := by
        simp [Except.bind, hf]
      rw [hstep]
      have h2' : ns.all
          (fun m => (catFind (catUpdate cat n { f with isInstalled := true }) m).isSome)
          = true := by
        rw [List.all_eq_true] at h2 ⊢
        intro m hm
        rw [catFind_catUpdate_isSome]
        exact h2 m hm
      rw [ih _ h2']
      have : markNames cat (n :: ns)
          = markNames (catUpdate cat n { f with isInstalled := true }) ns := by
        unfold markNames
        rw [List.foldl_cons, hf]
      rw [this]

theorem catFind_markNames (names : List Str) (cat : Catalog) (k : Str)
    (f : KubescapeFramework) (h : catFind cat k = some f) :
    catFind (markNames cat names) k =
      some (if names.contains k then { f with isInstalled := true } else f) := by
  induction names generalizing cat f with
  | nil => simpa [markNames] using h
  | cons n ns ih =>
    by_cases hnk : n = k
    · subst hnk
      have hstep : markNames cat (n :: ns)
          = markNames (catUpdate cat n { f with isInstalled := true }) ns := by
        unfold markNames
        rw [List.foldl_cons, h]
      rw [hstep]
      have hup : catFind (catUpdate cat n { f with isInstalled := true }) n
          = some { f with isInstalled := true } := by
        rw [catFind_catUpdate, if_pos rfl, h]
        rfl
      have := ih _ _ hup
      rw [this]
      have hcontains : (n :: ns).contains n = true := by simp [List.contains_cons]
      rw [if_pos hcontains]
      by_cases hmem : ns.contains n = true
      · rw [if_pos hmem]
      · rw [if_neg hmem]
    · cases hf : catFind cat n with
      | none =>
        have hstep : markNames cat (n :: ns) = markNames cat ns := by
          unfold markNames
          rw [List.foldl_cons, hf]
        rw [hstep, ih _ _ h]
        have : (n :: ns).contains k = ns.contains k := by
          simp [List.contains_cons, beq_eq_false_iff_ne.mpr hnk]
          intro he
          exact absurd he.symm hnk
        rw [this]
      | some g =>
        have hstep : markNames cat (n :: ns)
            = markNames (catUpdate cat n { g with isInstalled := true }) ns := by
          unfold markNames
          rw [List.foldl_cons, hf]
        have hpres : catFind (catUpdate cat n { g with isInstalled := true }) k = some f := by
          rw [catFind_catUpdate, if_neg hnk]
          exact h
        rw [hstep, ih _ _ hpres]
        have : (n :: ns).contains k = ns.contains k := by
          simp [List.contains_cons, beq_eq_false_iff_ne.mpr hnk]
          intro he
          exact absurd he.symm hnk
        rw [this]

theorem catKeys_all_present (cat : Catalog) :
    (catKeys cat).all (fun n => (catFind cat n).isSome) = true := by
  rw [List.all_eq_true]
  intro n hn
  unfold catKeys at hn
  obtain ⟨p, hp, hpn⟩ := List.mem_map.mp hn
  unfold catFind
  cases hfind : cat.find? (fun q => q.1 == n) with
  | some q => simp
  | none =>
    exfalso
    exact (List.find?_eq_none.mp hfind p hp) (beq_iff_eq.mpr hpn)

theorem contains_of_catFind (cat : Catalog) (k : Str) (f : KubescapeFramework)
    (h : catFind cat k = some f) : (catKeys cat).contains k = true := by
  unfold catFind at h
  cases hfind : cat.find? (fun p => p.1 == k) with
  | none => rw [hfind] at h; simp at h
  | some p =>
    have hmem := List.mem_of_find?_eq_some hfind
    have hkey : p.1 = k := by
      have := List.find?_some hfind
      exact beq_iff_eq.mp this
    rw [List.contains_iff_exists_mem_beq]
    exact ⟨p.1, List.mem_map_of_mem _ hmem, beq_iff_eq.mpr hkey.symm⟩

/-- C8 as stated is false for the empty scan list: a JS empty array is
truthy, so `!scanFrameworks` does not take the every-framework branch, no
name is selected, and the cataloged entry keeps `isInstalled = false`
where the claim requires `true`. -/
theorem selectScanFrameworks_counterexample :
    selectScanFrameworks (some [])
        [((("nsa").toList),
          { name := ("nsa").toList, isInstalled := false,
            location := some (("/p/nsa.json").toList) })]
      = Except.ok
          [((("nsa").toList),
            { name := ("nsa").toList, isInstalled := false,
              location := some (("/p/nsa.json").toList) })] := by decide

/-- C8 amended: an absent (undefined) scan list, or a list containing the
`all` sentinel, marks every cataloged framework `isInstalled = true`; a
specific list of names (each of which must be cataloged — an unknown name
throws a TypeError) marks exactly the listed entries, every other entry
keeping its prior flag; and — contrary to the claim — the EMPTY list is a
specific list: it selects nothing and leaves the catalog unchanged. -/
theorem selectScanFrameworks_amended (cat : Catalog) (names : List Str) (k : Str)
    (f : KubescapeFramework)
    (hk : catFind cat k = some f)
    (hpresent : names.all (fun n => (catFind cat n).isSome) = true) :
    (selectScanFrameworks none cat = Except.ok (markNames cat (catKeys cat)) ∧
      catFind (markNames cat (catKeys cat)) k = some { f with isInstalled := true }) ∧
      (names.contains (("all").toList) = true →
        selectScanFrameworks (some names) cat = Except.ok (markNames cat (catKeys cat))) ∧
      (names.contains (("all").toList) = false →
        selectScanFrameworks (some names) cat = Except.ok (markNames cat names) ∧
        catFind (markNames cat names) k =
          some (if names.contains k then { f with isInstalled := true } else f)) ∧
      selectScanFrameworks (some []) cat = Except.ok cat := by
  refine ⟨⟨?_, ?_⟩, ?_, ?_, ?_⟩
  · exact selectFold_eq_markNames (catKeys cat) cat (catKeys_all_present cat)
  · rw [catFind_markNames _ _ _ _ hk, if_pos (contains_of_catFind cat k f hk)]
  · intro hall
    unfold selectScanFrameworks
    dsimp only
    rw [hall]
    simp only [if_true]
    exact selectFold_eq_markNames (catKeys cat) cat (catKeys_all_present cat)
  · intro hnall
    refine ⟨?_, ?_⟩
    · unfold selectScanFrameworks
      dsimp only
      rw [hnall]
      simp only [Bool.false_eq_true, if_false]
      exact selectFold_eq_markNames names cat hpresent
    · exact catFind_markNames _ _ _ _ hk
  · rfl

theorem selectScanFrameworks_amended_witness :
    (selectScanFrameworks none
          [((("nsa").toList),
            { name := ("nsa").toList, isInstalled := false, location := none })]
        = Except.ok (markNames
            [((("nsa").toList),
              { name := ("nsa").toList, isInstalled := false, location := none })]
            (catKeys [((("nsa").toList),
              { name := ("nsa").toList, isInstalled := false, location := none })])) ∧
      catFind (markNames
          [((("nsa").toList),
            { name := ("nsa").toList, isInstalled := false, location := none })]
          (catKeys [((("nsa").toList),
            { name := ("nsa").toList, isInstalled := false, location := none })]))
        (("nsa").toList)
        = some { name := ("nsa").toList, isInstalled := true, location := none }) ∧
      ((["nsa".toList] : List Str).contains (("all").toList) = true →
        selectScanFrameworks (some [("nsa").toList])
            [((("nsa").toList),
              { name := ("nsa").toList, isInstalled := false, location := none })]
          = Except.ok (markNames
              [((("nsa").toList),
                { name := ("nsa").toList, isInstalled := false, location := none })]
              (catKeys [((("nsa").toList),
                { name := ("nsa").toList, isInstalled := false, location := none })]))) ∧
      ((["nsa".toList] : List Str).contains (("all").toList) = false →
        selectScanFrameworks (some [("nsa").toList])
            [((("nsa").toList),
              { name := ("nsa").toList, isInstalled := false, location := none })]
          = Except.ok (markNames
              [((("nsa").toList),
                { name := ("nsa").toList, isInstalled := false, location := none })]
              [("nsa").toList]) ∧
        catFind (markNames
            [((("nsa").toList),
              { name := ("nsa").toList, isInstalled := false, location := none })]
            [("nsa").toList]) (("nsa").toList)
          = some (if (["nsa".toList] : List Str).contains (("nsa").toList) then
              { name := ("nsa").toList, isInstalled := true, location := none }
            else { name := ("nsa").toList, isInstalled := false, location := none })) ∧
      selectScanFrameworks (some [])
          [((("nsa").toList),
            { name := ("nsa").toList, isInstalled := false, location := none })]
        = Except.ok
            [((("nsa").toList),
              { name := ("nsa").toList, isInstalled := false, location := none })] :=
  selectScanFrameworks_amended
    [((("nsa").toList),
      { name := ("nsa").toList, isInstalled := false, location := none })]
    [("nsa").toList] (("nsa").toList)
    { name := ("nsa").toList, isInstalled := false, location := none }
    (by decide) (by decide)

/-! ### The Orchestrator: `setup` (src:838-965) -/

def PACKAGE_DOWNLOAD_BASE_URL : Str :=
  ("https://github.com/armosec/kubescape/releases/download").toList

def COMMAND_GET_HELP : Str := ("help").toList

/-- `KubescapePath` (src:77-80). -/
structure KubescapePath where
  fullPath : Str
  baseDir : Str
deriving DecidableEq, Repr

/-- `IKubescapeConfig` (src:353-359); `Option` models `... | undefined`. -/
structure IKubescapeConfig where
  version : Str
  frameworksDirectory : Option Str
  baseDirectory : Str
  requiredFrameworks : Option (List Str)
  scanFrameworks : Option (List Str)
deriving DecidableEq, Repr

/-- The mutable fields of the `KubescapeApi` singleton (src:361-377). -/
structure KubescapeState where
  isInitialized : Bool
  isInstalled : Bool
  path : Option KubescapePath
  frameworkDir : Option Str
  versionInfo : Option KubescapeVersion
  frameworks : Option Catalog
deriving DecidableEq, Repr

/-- The fresh singleton (the private constructor, src:371-377). -/
def KubescapeState.initial : KubescapeState :=
  { isInitialized := false, isInstalled := false, path := none,
    frameworkDir := none, versionInfo := none, frameworks := none }

/-- The world as seen by one `setup` run: working directory, home
directory and environment, and the outcome of each external interaction
in program order.  `getInstalledFrameworks` is modelled by its result
(`diskFrameworks`, the on-disk scan of the framework directory); the
per-framework and bulk download subprocesses answer through
`missingExec` / `allExec`. -/
structure SetupOracle where
  cwd : Str
  home : Str
  env : List (Str × Str)
  helpOk : Bool
  versionRes : ExecResult
  latestTag : Str
  installOk : Bool
  versionResAfter : ExecResult
  frameworkDirOk : Bool
  diskFrameworks : List KubescapeFramework
  missingExec : Str → ExecResult
  allExec : ExecResult

def getOsKubescapeFilename : Str := ("kubescape").toList

/-- `getKubescapePath` (src:318-324), platform fixed to POSIX/Linux:
`path.resolve(decodeURIComponent(basedir))` for `baseDir`, and
`path.join(expand(baseDir), "kubescape")` for `fullPath`. -/
def getKubescapePath (cwd home : Str) (env : List (Str × Str)) (basedir : Str) :
    Except Str KubescapePath :=
  match decodeURIComponentL basedir with
  | none => Except.error (("URIError").toList)
  | some dec =>
    let decodedBaedir := resolveTwo cwd [] dec
    Except.ok { baseDir := decodedBaedir,
                fullPath := joinL (expand home env decodedBaedir) getOsKubescapeFilename }

/-- The `directory` getter (src:397-402): throws when `_path` is
`undefined` (a TypeError on `this._path.baseDir`) or when `baseDir` is
falsy. -/
def directoryOf (st : KubescapeState) : Except Str Str :=
  match st.path with
  | none => Except.error TYPE_ERROR
  | some kp =>
    if kp.baseDir.isEmpty then Except.error ERROR_KUBESCAPE_NOT_INSTALLED
    else Except.ok kp.baseDir

/-- Phase 5 of `setup` (src:906-964): framework-directory selection,
catalog seeding from disk, selective or bulk download, and active-set
selection.  A fault anywhere (URIError while decoding the custom
directory, a rejected or crashed download, a TypeError in the selection
loop) leaves the partially mutated state and is an `Except.error`. -/
def setupFrameworksPhase (st : KubescapeState) (configs : IKubescapeConfig)
    (orc : SetupOracle) (effs : List Effect) :
    Except Str Bool × KubescapeState × List Effect :=
  match st.versionInfo with
  | none => (Except.error ERROR_KUBESCAPE_NOT_INSTALLED, st, effs)
  | some vinfo =>
    let st0 := { st with frameworks := some [] }
    match (match configs.frameworksDirectory with
           | some d =>
             if d.isEmpty then Except.ok st.frameworkDir
             else
               (match decodeURIComponentL (expand orc.home orc.env (resolveTwo orc.cwd [] d)) with
                | none => Except.error (("URIError").toList)
                | some fd => Except.ok (some fd))
           | none => Except.ok st.frameworkDir) with
    | Except.error m => (Except.error m, st0, effs)
    | Except.ok fd0 =>
      match directoryOf st0 with
      | Except.error m => (Except.error m, { st0 with frameworkDir := fd0 }, effs)
      | Except.ok dirBase =>
        let fd2 :=
          match fd0 with
          | some d =>
            if !d.isEmpty then (if orc.frameworkDirOk then d else dirBase) else dirBase
          | none => dirBase
        let stD := { st0 with frameworkDir := some fd2 }
        let cat1 := appendToFrameworks [] orc.diskFrameworks
        let st1 := { stD with frameworks := some cat1 }
        match (match configs.requiredFrameworks with
               | some req =>
                 if !req.contains (("all").toList) then
                   let req2 := req.filter (fun n => !(catFind cat1 n).isSome)
                   if req2.isEmpty then (Except.ok cat1, ([] : List Effect))
                   else
                     (match installFrameworks vinfo.version cat1 req2 orc.missingExec with
                      | (PromiseOutcome.resolved _, cat2, deffs) => (Except.ok cat2, deffs)
                      | (PromiseOutcome.rejected m, _, deffs) => (Except.error m, deffs)
                      | (PromiseOutcome.crashed m, _, deffs) => (Except.error m, deffs))
                 else
                   (match downloadAllFrameworks vinfo.version orc.allExec with
                    | (PromiseOutcome.resolved fws, deffs) =>
                      (Except.ok (appendToFrameworks cat1 fws), deffs)
                    | (PromiseOutcome.rejected m, deffs) => (Except.error m, deffs)
                    | (PromiseOutcome.crashed m, deffs) => (Except.error m, deffs))
               | none =>
                 (match downloadAllFrameworks vinfo.version orc.allExec with
                  | (PromiseOutcome.resolved fws, deffs) =>
                    (Except.ok (appendToFrameworks cat1 fws), deffs)
                  | (PromiseOutcome.rejected m, deffs) => (Except.error m, deffs)
                  | (PromiseOutcome.crashed m, deffs) => (Except.error m, deffs))) with
        | (Except.error m, deffs) => (Except.error m, st1, effs ++ deffs)
        | (Except.ok cat2, deffs) =>
          let st2 := { st1 with frameworks := some cat2 }
          match selectScanFrameworks configs.scanFrameworks cat2 with
          | Except.error m => (Except.error m, st2, effs ++ deffs)
          | Except.ok cat3 =>
            (Except.ok true,
             { st2 with frameworks := some cat3, isInitialized := true },
             effs ++ deffs)

/-- Phase 4 of `setup` (src:884-898): conditional installation.  When the
freshly attempted install fails, src:889 calls `abort.abort()` — a
TypeError when the optional controller was not provided — so only a
provided controller reaches `return false`. -/
def setupInstallPhase (st : KubescapeState) (configs : IKubescapeConfig)
    (abortProvided : Bool) (orc : SetupOracle) (needsUpdate : Bool)
    (effs : List Effect) : Except Str Bool × KubescapeState × List Effect :=
  if needsUpdate then
    match directoryOf st with
    | Except.error m => (Except.error m, st, effs)
    | Except.ok _ =>
      let ieffs :=
        (if configs.version = TXT_LATEST then [Effect.net PACKAGE_BASE_URL] else [])
          ++ [Effect.net PACKAGE_DOWNLOAD_BASE_URL]
      let stI := { st with isInstalled := orc.installOk }
      if !orc.installOk then
        (if abortProvided then (Except.ok false, stI, effs ++ ieffs)
         else (Except.error TYPE_ERROR, stI, effs ++ ieffs))
      else
        match getKubescapeVersion true configs.version orc.versionResAfter orc.latestTag with
        | (Except.error m, veffs) => (Except.error m, stI, effs ++ ieffs ++ veffs)
        | (Except.ok vinfo, veffs) =>
          setupFrameworksPhase { stI with versionInfo := some vinfo } configs orc
            (effs ++ ieffs ++ veffs)
  else
    setupFrameworksPhase st configs orc effs

/-- `KubescapeApi.setup` (src:838-965) over explicit state, configuration
and world oracle.  The `Except` is the settled value of the returned
promise: `Except.ok` a value actually returned to the caller,
`Except.error` a thrown exception, an unhandled rejection, or an uncaught
callback exception — in every such case the caller never observes `true`.
`abortProvided` is whether the optional `AbortController` argument was
passed.  Effects are recorded at subcommand / base-URL granularity;
file-system operations are not effects; the `install` step
(src:265-285) is represented by its network effects and the oracle's
`installOk` outcome (`downloadFile` is modelled in detail separately). -/
def setup (st : KubescapeState) (configs : IKubescapeConfig) (abortProvided : Bool)
    (orc : SetupOracle) : Except Str Bool × KubescapeState × List Effect :=
  if st.isInitialized then (Except.ok true, st, [])
  else
    match getKubescapePath orc.cwd orc.home orc.env configs.baseDirectory with
    | Except.error m => (Except.error m, st, [])
    | Except.ok kp =>
      let st2 := { st with path := some kp, isInstalled := orc.helpOk }
      let effs2 := [Effect.subproc COMMAND_GET_HELP]
      if orc.helpOk then
        match getKubescapeVersion true configs.version orc.versionRes orc.latestTag with
        | (Except.error m, veffs) => (Except.error m, st2, effs2 ++ veffs)
        | (Except.ok vinfo, veffs) =>
          let st3 := { st2 with versionInfo := some vinfo }
          let rec3 := reconcileNeedsUpdate true vinfo.version configs.version orc.latestTag
          setupInstallPhase st3 configs abortProvided orc rec3.1 (effs2 ++ veffs ++ rec3.2)
      else
        setupInstallPhase st2 configs abortProvided orc true effs2

theorem setupFrameworksPhase_ok_true {st : KubescapeState} {configs : IKubescapeConfig}
    {orc : SetupOracle} {effs : List Effect} {st' : KubescapeState} {tr : List Effect}
    (h : setupFrameworksPhase st configs orc effs = (Except.ok true, st', tr)) :
    st'.isInitialized = true := by
  unfold setupFrameworksPhase at h
  dsimp only at h
  repeat' split at h
  all_goals
    (injection h with h1 h2
     first
       | exact Except.noConfusion h1
       | (injection h2 with h2a h2b
          rw [← h2a]))

theorem setupInstallPhase_ok_true {st : KubescapeState} {configs : IKubescapeConfig}
    {abortProvided : Bool} {orc : SetupOracle} {needsUpdate : Bool} {effs : List Effect}
    {st' : KubescapeState} {tr : List Effect}
    (h : setupInstallPhase st configs abortProvided orc needsUpdate effs
      = (Except.ok true, st', tr)) :
    st'.isInitialized = true := by
  unfold setupInstallPhase at h
  dsimp only at h
  repeat' split at h
  all_goals
    first
      | exact setupFrameworksPhase_ok_true h
      | (injection h with h1 h2
         first
           | exact Except.noConfusion h1
           | (injection h1 with hb
              exact Bool.noConfusion hb))

/-- Any `setup` run that returns `true` leaves `_isInitialized = true`:
the early no-op branch had it already, and the only other `true` return
(src:962-963) sets it. -/
theorem setup_ok_true {st : KubescapeState} {configs : IKubescapeConfig} {ab : Bool}
    {orc : SetupOracle} {st' : KubescapeState} {tr : List Effect}
    (h : setup st configs ab orc = (Except.ok true, st', tr)) :
    st'.isInitialized = true := by
  unfold setup at h
  split at h
  · rename_i hinit
    have h2 := congrArg (fun t => t.2.1) h
    simp at h2
    rw [← h2]
    exact hinit
  · dsimp only at h
    repeat' split at h
    all_goals
      first
        | exact setupInstallPhase_ok_true h
        | (injection h with h1 h2
           exact Except.noConfusion h1)

/-- C1 (amended to the current implementation, src/unnamed/part_000,
which sets `_isInitialized = true` at src:962 — the bundled legacy
variant never sets it, see the counterexample below): a second `setup`
call after a prior call that returned `true` is a no-op for every
configuration, abort argument and world: it returns `true` immediately,
performs no network requests or subprocess invocations (the effect trace
is empty), and leaves the orchestrator state — path, version info,
framework catalog — unchanged. -/
theorem setup_idempotent (st₀ : KubescapeState) (cfg₀ : IKubescapeConfig) (ab₀ : Bool)
    (orc₀ : SetupOracle) (st₁ : KubescapeState) (tr : List Effect)
    (h : setup st₀ cfg₀ ab₀ orc₀ = (Except.ok true, st₁, tr))
    (cfg : IKubescapeConfig) (ab : Bool) (orc : SetupOracle) :
    setup st₁ cfg ab orc = (Except.ok true, st₁, []) := by
  have hinit := setup_ok_true h
  unfold setup
  rw [if_pos hinit]

/-- A concrete configuration for the C1 witness run: pinned version,
one required and scanned framework. -/
def cfgW : IKubescapeConfig :=
  { version := ("v2.0.150").toList, frameworksDirectory := none,
    baseDirectory := ("/base").toList, requiredFrameworks := some [("nsa").toList],
    scanFrameworks := some [("nsa").toList] }

/-- A concrete world for the C1 witness run: the tool is installed at the
requested version, the disk has no frameworks, and the selective
download of `nsa` succeeds with a JSON descriptor. -/
def orcW : SetupOracle :=
  { cwd := ("/w").toList, home := ("/home/u").toList, env := [],
    helpOk := true,
    versionRes :=
      ⟨false, ("Your current version is: v2.0.150").toList, []⟩,
    latestTag := ("v9.9.9").toList, installOk := true,
    versionResAfter := ⟨false, ("v2.0.150").toList, []⟩,
    frameworkDirOk := true, diskFrameworks := [],
    missingExec := fun _ =>
      ⟨false, [], ("\x7b\"name\":\"NSA\",\"path\":\"/base/nsa.json\"\x7d").toList⟩,
    allExec := ⟨false, [], []⟩ }

/-- The state after the witness run of `setup` from the fresh singleton. -/
def stW : KubescapeState :=
  { isInitialized := true, isInstalled := true,
    path := some { fullPath := ("/base/kubescape").toList, baseDir := ("/base").toList },
    frameworkDir := some (("/base").toList),
    versionInfo := some { version := ("v2.0.150").toList, isLatest := false },
    frameworks := some [((("nsa").toList),
      { name := ("nsa").toList, isInstalled := true,
        location := some (("/base/nsa.json").toList) })] }

theorem setup_idempotent_witness :
    setup stW cfgW false orcW = (Except.ok true, stW, []) :=
  setup_idempotent KubescapeState.initial cfgW false orcW stW
    [Effect.subproc COMMAND_GET_HELP, Effect.subproc COMMAND_GET_VERSION,
     Effect.subproc (COMMAND_DOWNLOAD_FRAMEWORK ++ (' ' :: ("nsa").toList))]
    (by decide) cfgW false orcW

/-! ### The legacy variant of `setup` (src/src/index.ts:828-952)

The repository bundles a second, older implementation of the same class.
Its `setup` checks `_isInitialized` (src/src/index.ts:832) but no line of
that file ever assigns `true` to the flag (the only writes are the field
declaration and the constructor's `false`, lines 506 and 514), so a
second call after a successful first one re-runs every phase.  The other
differences embedded below: `getKubescapeVersion` takes no requested
kind and never queries upstream (a differing version token on stderr
clears `isLatest`); the per-framework download callback does no parsing
(so a failure is a clean rejection, and parsing happens later inside the
async `installFrameworks`, where a TypeError rejects rather than crashes);
the bulk download has no JSON branch; the custom framework directory is
assigned raw from the configuration and `decodeURIComponent` runs inside
the try (a URIError falls back instead of escaping). -/

/-- The legacy `getKubescapeVersion` (src/src/index.ts:598-627). -/
def getKubescapeVersionLegacy (isInstalled : Bool) (res : ExecResult) :
    Except Str KubescapeVersion × List Effect :=
  if !isInstalled then (Except.error ERROR_KUBESCAPE_NOT_INSTALLED, [])
  else if res.err then (Except.error res.stderr, [Effect.subproc COMMAND_GET_VERSION])
  else
    match findVersionToken res.stdout with
    | some tok =>
      (Except.ok { version := tok,
                   isLatest :=
                     match findVersionToken res.stderr with
                     | some tok2 => if tok2 ≠ tok then false else true
                     | none => true },
       [Effect.subproc COMMAND_GET_VERSION])
    | none => (Except.ok KubescapeVersion.default, [Effect.subproc COMMAND_GET_VERSION])

/-- One per-framework promise of the legacy `downloadMissingFrameworks`
(src/src/index.ts:629-645): `reject` on `err` (the fall-through `resolve`
is then a no-op), otherwise the replaced stdout string is resolved; the
callback parses nothing, so it cannot throw. -/
def downloadMissingFrameworkOutcomeLegacy (framework : Str) (res : ExecResult) :
    PromiseOutcome Str :=
  if res.err then
    PromiseOutcome.rejected ((("Could not download framework ").toList) ++ framework
      ++ ((". Reason:\n").toList) ++ res.stderr)
  else
    PromiseOutcome.resolved
      (replaceFirstL legacyFrameworkTag (legacyFrameworkRep framework) res.stdout)

/-- The legacy `installFrameworks` (src/src/index.ts:738-754): the
download results are parsed by `resolveKubescapeFrameworks` inside the
async method body, so a parse TypeError rejects the method's promise. -/
def installFrameworksLegacy (cat : Catalog) (frameworks : List Str)
    (exec : Str → ExecResult) : PromiseOutcome Unit × Catalog × List Effect :=
  let ms := markInstalledSplit cat frameworks
  if ms.2.isEmpty then (PromiseOutcome.resolved (), ms.1, [])
  else
    let effs := ms.2.map (fun fw => Effect.subproc (COMMAND_DOWNLOAD_FRAMEWORK ++ (' ' :: fw)))
    match promiseAll (ms.2.map (fun fw => downloadMissingFrameworkOutcomeLegacy fw (exec fw))) with
    | PromiseOutcome.resolved outs =>
      (match resolveKubescapeFrameworksE outs with
       | Except.ok fws => (PromiseOutcome.resolved (), appendToFrameworks ms.1 fws, effs)
       | Except.error m => (PromiseOutcome.rejected m, ms.1, effs))
    | PromiseOutcome.rejected m => (PromiseOutcome.rejected m, ms.1, effs)
    | PromiseOutcome.crashed m => (PromiseOutcome.crashed m, ms.1, effs)

/-- The legacy `downloadAllFrameworks` (src/src/index.ts:647-665): no
version branch — always the legacy stdout regex; the matched strings are
resolved unparsed (parsing happens at the call site, src:932). -/
def downloadAllFrameworksLegacy (res : ExecResult) : PromiseOutcome (List Str) × List Effect :=
  ((if res.err then
      PromiseOutcome.crashed ((("Unable to download artifacts:\n").toList) ++ res.stderr)
    else PromiseOutcome.resolved (legacyMatches res.stdout)),
   [Effect.subproc COMMAND_DOWNLOAD_ARTIFACTS])

/-- Phase 5 of the legacy `setup` (src/src/index.ts:887-950).  Unlike the
part_000 variant it ends with a bare `return true`: `_isInitialized` is
NOT set. -/
def setupFrameworksPhaseLegacy (st : KubescapeState) (configs : IKubescapeConfig)
    (orc : SetupOracle) (effs : List Effect) :
    Except Str Bool × KubescapeState × List Effect :=
  match st.versionInfo with
  | none => (Except.error ERROR_KUBESCAPE_NOT_INSTALLED, st, effs)
  | some _ =>
    let st0 := { st with frameworks := some [], frameworkDir := configs.frameworksDirectory }
    match directoryOf st0 with
    | Except.error m => (Except.error m, st0, effs)
    | Except.ok dirBase =>
      let fd2 :=
        match configs.frameworksDirectory with
        | some d =>
          if !d.isEmpty then
            (let fd1 := expand orc.home orc.env d
             if (decodeURIComponentL fd1).isSome && orc.frameworkDirOk then fd1 else dirBase)
          else dirBase
        | none => dirBase
      let stD := { st0 with frameworkDir := some fd2 }
      let cat1 := appendToFrameworks [] orc.diskFrameworks
      let st1 := { stD with frameworks := some cat1 }
      match (match configs.requiredFrameworks with
             | some req =>
               if !req.contains (("all").toList) then
                 let req2 := req.filter (fun n => !(catFind cat1 n).isSome)
                 if req2.isEmpty then (Except.ok cat1, ([] : List Effect))
                 else
                   (match installFrameworksLegacy cat1 req2 orc.missingExec with
                    | (PromiseOutcome.resolved _, cat2, deffs) => (Except.ok cat2, deffs)
                    | (PromiseOutcome.rejected m, _, deffs) => (Except.error m, deffs)
                    | (PromiseOutcome.crashed m, _, deffs) => (Except.error m, deffs))
               else
                 (match downloadAllFrameworksLegacy orc.allExec with
                  | (PromiseOutcome.resolved outs, deffs) =>
                    (match resolveKubescapeFrameworksE outs with
                     | Except.ok fws => (Except.ok (appendToFrameworks cat1 fws), deffs)
                     | Except.error m => (Except.error m, deffs))
                  | (PromiseOutcome.rejected m, deffs) => (Except.error m, deffs)
                  | (PromiseOutcome.crashed m, deffs) => (Except.error m, deffs))
             | none =>
               (match downloadAllFrameworksLegacy orc.allExec with
                | (PromiseOutcome.resolved outs, deffs) =>
                  (match resolveKubescapeFrameworksE outs with
                   | Except.ok fws => (Except.ok (appendToFrameworks cat1 fws), deffs)
                   | Except.error m => (Except.error m, deffs))
                | (PromiseOutcome.rejected m, deffs) => (Except.error m, deffs)
                | (PromiseOutcome.crashed m, deffs) => (Except.error m, deffs))) with
      | (Except.error m, deffs) => (Except.error m, st1, effs ++ deffs)
      | (Except.ok cat2, deffs) =>
        let st2 := { st1 with frameworks := some cat2 }
        match selectScanFrameworks configs.scanFrameworks cat2 with
        | Except.error m => (Except.error m, st2, effs ++ deffs)
        | Except.ok cat3 =>
          (Except.ok true, { st2 with frameworks := some cat3 }, effs ++ deffs)

/-- Phase 4 of the legacy `setup` (src/src/index.ts:871-884), same shape
as the part_000 variant (the legacy `install`, src:421-441, has the same
network structure), but the post-install version query takes no kind. -/
def setupInstallPhaseLegacy (st : KubescapeState) (configs : IKubescapeConfig)
    (abortProvided : Bool) (orc : SetupOracle) (needsUpdate : Bool)
    (effs : List Effect) : Except Str Bool × KubescapeState × List Effect :=
  if needsUpdate then
    match directoryOf st with
    | Except.error m => (Except.error m, st, effs)
    | Except.ok _ =>
      let ieffs :=
        (if configs.version = TXT_LATEST then [Effect.net PACKAGE_BASE_URL] else [])
          ++ [Effect.net PACKAGE_DOWNLOAD_BASE_URL]
      let stI := { st with isInstalled := orc.installOk }
      if !orc.installOk then
        (if abortProvided then (Except.ok false, stI, effs ++ ieffs)
         else (Except.error TYPE_ERROR, stI, effs ++ ieffs))
      else
        match getKubescapeVersionLegacy true orc.versionResAfter with
        | (Except.error m, veffs) => (Except.error m, stI, effs ++ ieffs ++ veffs)
        | (Except.ok vinfo, veffs) =>
          setupFrameworksPhaseLegacy { stI with versionInfo := some vinfo } configs orc
            (effs ++ ieffs ++ veffs)
  else
    setupFrameworksPhaseLegacy st configs orc effs

/-- The legacy `setup` (src/src/index.ts:828-952).  Phases 1-3 mirror the
part_000 variant (`getKubescapePath`, the help probe, and the
reconciliation of src:856-866 — identical text there), except that the
version query takes no requested kind. -/
def setupLegacy (st : KubescapeState) (configs : IKubescapeConfig) (abortProvided : Bool)
    (orc : SetupOracle) : Except Str Bool × KubescapeState × List Effect :=
  if st.isInitialized then (Except.ok true, st, [])
  else
    match getKubescapePath orc.cwd orc.home orc.env configs.baseDirectory with
    | Except.error m => (Except.error m, st, [])
    | Except.ok kp =>
      let st2 := { st with path := some kp, isInstalled := orc.helpOk }
      let effs2 := [Effect.subproc COMMAND_GET_HELP]
      if orc.helpOk then
        match getKubescapeVersionLegacy true orc.versionRes with
        | (Except.error m, veffs) => (Except.error m, st2, effs2 ++ veffs)
        | (Except.ok vinfo, veffs) =>
          let st3 := { st2 with versionInfo := some vinfo }
          let rec3 := reconcileNeedsUpdate true vinfo.version configs.version orc.latestTag
          setupInstallPhaseLegacy st3 configs abortProvided orc rec3.1 (effs2 ++ veffs ++ rec3.2)
      else
        setupInstallPhaseLegacy st2 configs abortProvided orc true effs2

/-- A concrete world for the legacy run: the tool is installed at the
requested version and the selective download of `nsa` succeeds with
legacy single-quoted output. -/
def orcL : SetupOracle :=
  { cwd := ("/w").toList, home := ("/home/u").toList, env := [],
    helpOk := true,
    versionRes :=
      ⟨false, ("Your current version is: v2.0.150").toList, []⟩,
    latestTag := ("v9.9.9").toList, installOk := true,
    versionResAfter := ⟨false, ("v2.0.150").toList, []⟩,
    frameworkDirOk := true, diskFrameworks := [],
    missingExec := fun _ =>
      ⟨false, ("\x27framework\x27 saved: \x27/base/nsa.json\x27").toList, []⟩,
    allExec := ⟨false, [], []⟩ }

/-- C1 as stated is false for the legacy `setup` the claim also cites
(src/src/index.ts:828-952): that variant tests `_isInitialized`
(src:832) but never assigns `true` to it, so after a first call that
returned `true` the flag is still `false`, and a second call with the
same configuration re-runs every phase — help probe, version subprocess
and framework download are all invoked again (a non-empty, identical
effect trace), refuting "returns true immediately and performs no
further network requests, subprocess invocations, or mutations". -/
theorem setupLegacy_counterexample :
    (setupLegacy KubescapeState.initial cfgW false orcL).1 = Except.ok true ∧
      ((setupLegacy KubescapeState.initial cfgW false orcL).2.1).isInitialized = false ∧
      (setupLegacy (setupLegacy KubescapeState.initial cfgW false orcL).2.1
          cfgW false orcL).2.2
        = [Effect.subproc COMMAND_GET_HELP, Effect.subproc COMMAND_GET_VERSION,
           Effect.subproc (COMMAND_DOWNLOAD_FRAMEWORK ++ (' ' :: ("nsa").toList))] ∧
      ([Effect.subproc COMMAND_GET_HELP, Effect.subproc COMMAND_GET_VERSION,
        Effect.subproc (COMMAND_DOWNLOAD_FRAMEWORK ++ (' ' :: ("nsa").toList))]
        : List Effect) ≠ [] := by
  refine ⟨by decide, by decide, by decide, by decide⟩

end NodeKubescape
